import Mathlib

/-!
Verification development for the Ontario tenancy statute ingestion pipeline.

The pipeline turns a linear stream of document fragments into a hierarchical
legal-act model (Act → Part → Section → Subsection → Paragraph) and then a
flat chunk list for retrieval.  This file gives a shallow embedding of the
four pipeline stages — the hierarchy builder (`docx_parser.py`), the
post-processor (`post_processor.py`), the enhancer (`enhancer.py`) and the
chunk flattener (`flatten_for_rag.py`) — and proves the stated properties
about them.

Python regular expressions are embedded through a small backtracking engine
(`RE`/`reRuns`) whose alternatives are explored in the same priority order as
the reference engine; each pattern of the source is transliterated into an
`RE` value.  Python strings are modelled as Lean `String`s (`len` = number of
code points, as in Python 3); `str.strip`, `str.upper` and friends are
modelled for the ASCII + punctuation alphabet the statute data uses.
-/

namespace RTA

/-! ## Python string primitives -/

/-- Whitespace characters recognised by Python's `str.strip` / `\s`
(ASCII subset, which is all the pipeline's data contains). -/
def pyIsSpace (c : Char) : Bool :=
  c == ' ' || c == '\t' || c == '\n' || c == '\r' || c == '\x0b' || c == '\x0c'

/-- Python `str.isdigit` on a single ASCII character / regex `\d`. -/
def pyIsDigit (c : Char) : Bool := '0' ≤ c && c ≤ '9'

/-- Strip a leading run of characters satisfying `p`. -/
def lstripP (p : Char → Bool) (l : List Char) : List Char := l.dropWhile p

/-- Strip a trailing run of characters satisfying `p`. -/
def rstripP (p : Char → Bool) (l : List Char) : List Char :=
  (l.reverse.dropWhile p).reverse

/-- Python `str.strip()` (no argument: whitespace on both ends). -/
def pyStripL (l : List Char) : List Char := rstripP pyIsSpace (lstripP pyIsSpace l)

/-- Python `str.strip()` on `String`. -/
def pyStrip (s : String) : String := ⟨pyStripL s.data⟩

/-- Python `str.strip(chars)`: remove characters of `cs` from both ends. -/
def pyStripChars (s : String) (cs : List Char) : String :=
  ⟨rstripP (fun c => cs.contains c) (lstripP (fun c => cs.contains c) s.data)⟩

/-- Python `str.upper()` (ASCII; other characters are unchanged). -/
def pyUpper (s : String) : String := ⟨s.data.map Char.toUpper⟩

/-- Substring containment on character lists (Python `needle in hay`). -/
def containsL (hay needle : List Char) : Bool :=
  match hay with
  | [] => needle.isEmpty
  | _ :: t => needle.isPrefixOf hay || containsL t needle

/-- Python `needle in hay` on `String`. -/
def strContains (hay needle : String) : Bool := containsL hay.data needle.data

/-- First `n` characters of a string (Python `s[:n]`). -/
def strTake (s : String) (n : Nat) : String := ⟨s.data.take n⟩

/-! ## A small backtracking regular-expression engine

Alternatives are produced in the priority order of a classical backtracking
engine (leftmost match, greedy/lazy quantifiers), which is the order Python's
`re` module uses on the patterns below (none of them repeats a nullable
body). -/

/-- Regular expressions: single-character classes, sequencing, alternation,
greedy/lazy star and option, numbered capture groups, and the `$` anchor
(end of string, or just before one final newline). -/
inductive RE where
  | eps : RE
  | cls (p : Char → Bool) : RE
  | seq (a b : RE) : RE
  | alt (a b : RE) : RE
  | star (lazy : Bool) (a : RE) : RE
  | opt (lazy : Bool) (a : RE) : RE
  | group (n : Nat) (a : RE) : RE
  | eol : RE

/-- Capture environment: most recent capture first. -/
abbrev Caps := List (Nat × List Char)

/-- All ways `r` can match a prefix of `s`, as (captures, remaining suffix)
pairs in backtracking priority order.  `fuel` decreases on every recursive
call (a fueled interpreter, so the kernel can evaluate it); a star iteration
must consume at least one character, so the recursion depth is bounded by
the pattern size plus a small multiple of `s.length`, and the fuel
`reFuel s` below is always sufficient for the patterns in this file. -/
def reRuns : Nat → RE → List Char → List (Caps × List Char)
  | 0, _, _ => []
  | fuel + 1, r, s =>
    match r with
    | .eps => [([], s)]
    | .cls p =>
      match s with
      | [] => []
      | c :: cs => if p c then [([], cs)] else []
    | .seq a b =>
      (reRuns fuel a s).flatMap fun pr =>
        (reRuns fuel b pr.2).map fun qr => (qr.1 ++ pr.1, qr.2)
    | .alt a b => reRuns fuel a s ++ reRuns fuel b s
    | .opt lz a =>
      if lz then ([], s) :: reRuns fuel a s
      else reRuns fuel a s ++ [([], s)]
    | .group n a =>
      (reRuns fuel a s).map fun pr =>
        ((n, s.take (s.length - pr.2.length)) :: pr.1, pr.2)
    | .eol => if s = [] ∨ s = ['\n'] then [([], s)] else []
    | .star lz a =>
      let once := (reRuns fuel a s).filter fun pr => pr.2.length < s.length
      let more := once.flatMap fun pr =>
        (reRuns fuel (.star lz a) pr.2).map fun qr => (qr.1 ++ pr.1, qr.2)
      if lz then ([], s) :: more else more ++ [([], s)]

/-- Fuel that is always sufficient for the patterns of this file (their size
is under 100 nodes and every star body consumes at least one character). -/
def reFuel (s : List Char) : Nat := 500 + 8 * s.length

/-- Best (= first in priority order) match of `r` against a prefix of `s`,
returning captures and the number of characters consumed. -/
def reTop (r : RE) (s : List Char) : Option (Caps × Nat) :=
  match reRuns (reFuel s) r s with
  | [] => none
  | (caps, rest) :: _ => some (caps, s.length - rest.length)

/-- A match found by `reSearch`: start offset, end offset, captures. -/
structure REMatch where
  start : Nat
  stop : Nat
  caps : Caps
deriving DecidableEq

/-- Scan for the leftmost match (Python `re.search`). -/
def reSearchAux (r : RE) : List Char → Nat → Option REMatch
  | s, i =>
    match reTop r s with
    | some (caps, len) => some ⟨i, i + len, caps⟩
    | none =>
      match s with
      | [] => none
      | _ :: t => reSearchAux r t (i + 1)

/-- Python `re.search(r, s)`. -/
def reSearch (r : RE) (s : String) : Option REMatch := reSearchAux r s.data 0

/-- Python `re.search(r, s) is not None`. -/
def reSearchBool (r : RE) (s : String) : Bool := (reSearch r s).isSome

/-- Value of capture group `n` (most recent capture wins, as in Python). -/
def capStr (caps : Caps) (n : Nat) : Option String :=
  (caps.lookup n).map fun l => ⟨l⟩

/-- Python `re.match(r, s)` keeping only groups 1 and 2. -/
def reMatch2 (r : RE) (s : String) : Option (String × String) :=
  match reTop r s.data with
  | some (caps, _) =>
    match capStr caps 1, capStr caps 2 with
    | some g1, some g2 => some (g1, g2)
    | _, _ => none
  | none => none

/-- Python `re.match(r, s)` keeping only group 1. -/
def reMatch1 (r : RE) (s : String) : Option String :=
  match reTop r s.data with
  | some (caps, _) => capStr caps 1
  | none => none

/-- Python `re.match(r, s) is not None`. -/
def reMatchBool (r : RE) (s : String) : Bool := (reTop r s.data).isSome

/-! ### Pattern-building helpers -/

/-- Concatenation of a list of regexes. -/
def reCat (l : List RE) : RE := l.foldr .seq .eps

/-- Literal character sequence. -/
def reLit (cs : List Char) : RE := reCat (cs.map fun c => .cls (fun d => d == c))

/-- Case-insensitive literal character sequence (`re.IGNORECASE`). -/
def reLitCI (cs : List Char) : RE :=
  reCat (cs.map fun c => .cls (fun d => d.toUpper == c.toUpper))

/-- One or more repetitions. -/
def rePlus (lazy : Bool) (a : RE) : RE := .seq a (.star lazy a)

/-- Exactly `n` repetitions. -/
def reRep : Nat → RE → RE
  | 0, _ => .eps
  | n + 1, a => .seq a (reRep n a)

/-- `\s` as a regex atom. -/
def reSp : RE := .cls pyIsSpace

/-- `\d` as a regex atom. -/
def reDigit : RE := .cls pyIsDigit

/-- `.` — any character except a newline. -/
def reDot : RE := .cls (fun c => c != '\n')

/-! ## The source's regular expressions, transliterated

Each definition below is one pattern of `docx_parser.py` / `enhancer.py`;
character classes containing `–` (U+2013) / `—` (U+2014) are written with
those exact characters, as in the source. -/

/-- `[,\s]c\.\s*\d+[,\s]s\.\s*\d+` of `is_amendment_entry` (searched). -/
def amendEntryRE : RE :=
  reCat [.cls (fun c => c == ',' || pyIsSpace c), reLit ['c', '.'],
    .star false reSp, rePlus false reDigit,
    .cls (fun c => c == ',' || pyIsSpace c), reLit ['s', '.'],
    .star false reSp, rePlus false reDigit]

/-- `(\d{4}),\s*c\.\s*(\d+)(?:,\s*(?:s\.|Sched\.)\s*(\d+))?\s*(?:-\s*(\d{2}/\d{2}/\d{4}))?`
of `extract_amendment_info` (searched). -/
def extractAmendRE : RE :=
  reCat [.group 1 (reRep 4 reDigit), reLit [','], .star false reSp,
    reLit ['c', '.'], .star false reSp, .group 2 (rePlus false reDigit),
    .opt false (reCat [reLit [','], .star false reSp,
      .alt (reLit ['s', '.']) (reLit ['S', 'c', 'h', 'e', 'd', '.']),
      .star false reSp, .group 3 (rePlus false reDigit)]),
    .star false reSp,
    .opt false (reCat [reLit ['-'], .star false reSp,
      .group 4 (reCat [reRep 2 reDigit, reLit ['/'], reRep 2 reDigit,
        reLit ['/'], reRep 4 reDigit])])]

/-- `Section Amendments with date in force` (case-insensitive, searched). -/
def sectionAmendHdrRE : RE :=
  reLitCI "Section Amendments with date in force".data

/-- `^SCHEDULE\s+([A-Z0-9]+)\s*[–-]?\s*(.*)$` (case-insensitive). -/
def schedRE : RE :=
  reCat [reLitCI "SCHEDULE".data, rePlus false reSp,
    .group 1 (rePlus false (.cls fun c =>
      ('A' ≤ c.toUpper && c.toUpper ≤ 'Z') || pyIsDigit c)),
    .star false reSp, .opt false (.cls fun c => c == '–' || c == '-'),
    .star false reSp, .group 2 (.star false reDot), .eol]

/-- `^PART\s+[IVXLC]+` (case-insensitive), the Part test inside a Schedule. -/
def partPrefixRE : RE :=
  reCat [reLitCI "PART".data, rePlus false reSp,
    rePlus false (.cls fun c => "IVXLC".data.contains c.toUpper)]

/-- `^PART\s+([IVXLC]+|[\d]+)\s*[–-]\s*(.+)$` (case-insensitive). -/
def partRE : RE :=
  reCat [reLitCI "PART".data, rePlus false reSp,
    .group 1 (.alt (rePlus false (.cls fun c => "IVXLC".data.contains c.toUpper))
      (rePlus false reDigit)),
    .star false reSp, .cls (fun c => c == '–' || c == '-'),
    .star false reSp, .group 2 (rePlus false reDot), .eol]

/-- `^part\s+([ivxlc]+|[\d]+)\s*[\n\r]+\s*(.+)$` (case-insensitive). -/
def multilinePartRE : RE :=
  reCat [reLitCI "part".data, rePlus false reSp,
    .group 1 (.alt (rePlus false (.cls fun c => "IVXLC".data.contains c.toUpper))
      (rePlus false reDigit)),
    .star false reSp, rePlus false (.cls fun c => c == '\n' || c == '\r'),
    .star false reSp, .group 2 (rePlus false reDot), .eol]

/-- `^part\s+([ivxlc]+|[\d]+)\s*$` (case-insensitive). -/
def partNumOnlyRE : RE :=
  reCat [reLitCI "part".data, rePlus false reSp,
    .group 1 (.alt (rePlus false (.cls fun c => "IVXLC".data.contains c.toUpper))
      (rePlus false reDigit)),
    .star false reSp, .eol]

/-- `^["""]([^"""]+)["""]?\s+means\s+(.+)$` — in the source bytes the three
class entries are all the ASCII double quote, so the class is just `"`. -/
def defnRE : RE :=
  reCat [.cls (fun c => c == '"'), .group 1 (rePlus false (.cls fun c => c != '"')),
    .opt false (.cls fun c => c == '"'), rePlus false reSp,
    reLit "means".data, rePlus false reSp, .group 2 (rePlus false reDot), .eol]

/-- `^(?:Section\s+)?(\d+)\.?\s*(.*)$`. -/
def sectionRE : RE :=
  reCat [.opt false (reCat [reLit "Section".data, rePlus false reSp]),
    .group 1 (rePlus false reDigit), .opt false (.cls fun c => c == '.'),
    .star false reSp, .group 2 (.star false reDot), .eol]

/-- `^\((\d+)\)\s*(.*)$`. -/
def subsectionRE : RE :=
  reCat [reLit ['('], .group 1 (rePlus false reDigit), reLit [')'],
    .star false reSp, .group 2 (.star false reDot), .eol]

/-- `^\(([a-z])\)\s*(.*)$` (case-insensitive). -/
def paragraphRE : RE :=
  reCat [reLit ['('],
    .group 1 (.cls fun c => 'A' ≤ c.toUpper && c.toUpper ≤ 'Z'),
    reLit [')'], .star false reSp, .group 2 (.star false reDot), .eol]

/-- `(.+?)\s+(PART\s+[IVXLC]+\s*[–-]\s*.+)$` (case-insensitive, searched)
of `split_merged_content`. -/
def splitMergedRE : RE :=
  reCat [.group 1 (rePlus true reDot), rePlus false reSp,
    .group 2 (reCat [reLitCI "PART".data, rePlus false reSp,
      rePlus false (.cls fun c => "IVXLC".data.contains c.toUpper),
      .star false reSp, .cls (fun c => c == '–' || c == '-'),
      .star false reSp, rePlus false reDot]),
    .eol]

/-- `"([^"]+)"[^(]*\("([^)]+)"\)` of `extract_bilingual_terms` (findall). -/
def bilingualRE : RE :=
  reCat [.cls (fun c => c == '"'), .group 1 (rePlus false (.cls fun c => c != '"')),
    .cls (fun c => c == '"'), .star false (.cls fun c => c != '('),
    reLit ['(', '"'], .group 2 (rePlus false (.cls fun c => c != ')')),
    reLit ['"', ')']]

/-- `^(.+?)\.\s+(\d+)\s+([A-Z].*)$` of `split_merged_section_titles`
(searched, but `^` pins it to the start). -/
def mergedTitleRE : RE :=
  reCat [.group 1 (rePlus true reDot), reLit ['.'], rePlus false reSp,
    .group 2 (rePlus false reDigit), rePlus false reSp,
    .group 3 (reCat [.cls (fun c => 'A' ≤ c && c ≤ 'Z'), .star false reDot]),
    .eol]

/-- The separator class `[,\s\-–—]` used by `clean_section_title` and by the
trailing cleanup in `extract_amendment_info`. -/
def isSepChar (c : Char) : Bool :=
  c == ',' || pyIsSpace c || c == '-' || c == '–' || c == '—'

/-! ## Data model

Python dicts are modelled as structures; keys that a later stage may add are
`Option` fields initialised to `none`.  `None`-valued fields of the source are
likewise `Option`. -/

/-- Structured amendment citation attached to a Section/Subsection
(the dict built by `extract_amendment_info`). -/
structure AmendmentInfo where
  year : String
  chapter : String
  citation : String
  sectionRef : Option String
  scheduleRef : Option String
  effective_date : Option String
deriving DecidableEq

/-- A standalone entry of `document["amendments"]`. -/
structure StandaloneAmendment where
  year : Option String
  citation : String
  full_text : String
deriving DecidableEq

structure Paragraph where
  label : String
  text : String
deriving DecidableEq

structure Subsection where
  subsection_number : String
  subsection_text : String
  paragraphs : List Paragraph
  amendment_info : Option AmendmentInfo
  subsection_id : Option String
  estimated_tokens : Option Nat
deriving DecidableEq

structure Section where
  section_number : String
  section_title : String
  section_text : String
  subsections : List Subsection
  amendment_info : Option AmendmentInfo
  section_id : Option String
  estimated_tokens : Option Nat
deriving DecidableEq

structure Part where
  part_number : String
  part_title : String
  sections : List Section
  description : Option String
  summary_hint : Option String
  total_sections : Option Nat
  total_subsections : Option Nat
deriving DecidableEq

structure Definition where
  term : String
  definition : String
deriving DecidableEq

structure Schedule where
  schedule_id : String
  schedule_title : String
  content : String
deriving DecidableEq

/-- A `{english, french, section_id}` triple of `extract_bilingual_terms`. -/
structure BilingualTerm where
  english : String
  french : String
  section_id : String
deriving DecidableEq

/-- An entry of `metadata["chunking_recommendations"]`. -/
structure ChunkingRec where
  section_id : Option String
  section_number : String
  section_title : String
  estimated_tokens : Nat
  recommendation : String
deriving DecidableEq

/-- The `document["metadata"]` block (the fields the pipeline writes). -/
structure MetadataBlock where
  chunking_recommendations : List ChunkingRec
  total_parts : Option Nat
  total_sections : Option Nat
  total_subsections : Option Nat
  total_characters : Option Nat
  estimated_total_tokens : Option Nat
  recommended_chunk_strategy : Option String
  optimal_for : List String
deriving DecidableEq

/-- An empty metadata dict. -/
def emptyMetadata : MetadataBlock :=
  { chunking_recommendations := [], total_parts := none, total_sections := none,
    total_subsections := none, total_characters := none,
    estimated_total_tokens := none, recommended_chunk_strategy := none,
    optimal_for := [] }

structure Document where
  act_name : Option String
  jurisdiction : String
  citation : Option String
  consolidation_date : Option String
  last_amendment : Option String
  parts : List Part
  definitions : List Definition
  schedules : List Schedule
  amendments : List StandaloneAmendment
  source_url : Option String
  bilingual_terms : Option (List BilingualTerm)
  metadata : Option MetadataBlock
deriving DecidableEq

/-! ## Element classifier (`docx_parser.py`, lines 7–81) -/

/-- `is_amendment_entry(text, section_number)`: a 4-digit "section number" is
an amendment year, and `", c. N, s. M"`-style fragments are citations. -/
def is_amendment_entry (text sectionNumber : String) : Bool :=
  if sectionNumber.length == 4 && sectionNumber.data.all pyIsDigit then true
  else reSearchBool amendEntryRE text

/-- `clean_section_title(title)`: strip a leading run of commas, whitespace
and dashes, then strip whitespace. -/
def clean_section_title (title : String) : String :=
  pyStrip ⟨lstripP isSepChar title.data⟩

/-- `split_merged_content(text)`: split off a trailing merged `PART …` header
if present. -/
def split_merged_content (text : String) : String × Option String :=
  match reSearch splitMergedRE text with
  | some m =>
    match capStr m.caps 1, capStr m.caps 2 with
    | some g1, some g2 => (pyStrip g1, some (pyStrip g2))
    | _, _ => (text, none)
  | none => (text, none)

/-- `extract_amendment_info(text)`: find an amendment citation, build its
structured record, and return the text before the citation with trailing
separators stripped.  Returns `("", none)` for the
`Section Amendments with date in force` header lines. -/
def extract_amendment_info (text : String) : String × Option AmendmentInfo :=
  match reSearch extractAmendRE text with
  | some m =>
    let year := (capStr m.caps 1).getD ""
    let chapter := (capStr m.caps 2).getD ""
    let sectionOrSchedule := capStr m.caps 3
    let effectiveDate := capStr m.caps 4
    let whole : String := ⟨(text.data.drop m.start).take (m.stop - m.start)⟩
    let info : AmendmentInfo :=
      { year := year, chapter := chapter, citation := pyStrip whole,
        sectionRef := none, scheduleRef := none, effective_date := none }
    let info :=
      match sectionOrSchedule with
      | some v =>
        if strContains text "Sched." then { info with scheduleRef := some v }
        else { info with sectionRef := some v }
      | none => info
    let info :=
      match effectiveDate with
      | some d => { info with effective_date := some d }
      | none => info
    let cleaned := pyStrip (strTake text m.start)
    let cleaned := pyStrip ⟨rstripP isSepChar cleaned.data⟩
    (cleaned, some info)
  | none =>
    if reSearchBool sectionAmendHdrRE text then ("", none)
    else (text, none)

/-! ## Hierarchy builder (`parse_legal_document`, `docx_parser.py` 84–351)

The Python loop keeps references `current_part` / `current_section` /
`current_subsection` / `current_schedule` into the document under
construction.  In the functional model the current Part is an index into
`doc.parts` (it is index 0 when the synthetic PRELIMINARY part was created
against a non-empty list, the last index otherwise); whenever a Section is
current it is the last section of the current Part, whenever a Subsection is
current it is the last subsection of that Section, and whenever a Schedule is
current it is the last element of `doc.schedules`, so those three are plain
flags. -/

/-- Apply `f` to the element at index `i`. -/
def modifyAt (f : α → α) : Nat → List α → List α
  | _, [] => []
  | 0, a :: rest => f a :: rest
  | n + 1, a :: rest => a :: modifyAt f n rest

/-- Apply `f` to the last element. -/
def modifyLast (f : α → α) : List α → List α
  | [] => []
  | [a] => [f a]
  | a :: b :: rest => a :: modifyLast f (b :: rest)

/-- A freshly opened Part dict (`{"part_number": …, "part_title": …, "sections": []}`). -/
def mkPart (num title : String) : Part :=
  { part_number := num, part_title := title, sections := [], description := none,
    summary_hint := none, total_sections := none, total_subsections := none }

/-- One input element of the fragment stream (`{category, text}`). -/
structure Element where
  category : String
  text : String
deriving DecidableEq

/-- The loop state of `parse_legal_document`. -/
structure BuilderState where
  doc : Document
  curPart : Option Nat
  curSection : Bool
  curSubsection : Bool
  curSchedule : Bool
  pendingPartText : Option String
  pendingPartNumber : Option String
deriving DecidableEq

/-- Mutate the current Part in place (no-op when none is current,
which the source never does). -/
def withCurPart (st : BuilderState) (f : Part → Part) : BuilderState :=
  match st.curPart with
  | some i => { st with doc := { st.doc with parts := modifyAt f i st.doc.parts } }
  | none => st

/-- Mutate the current Section (the last section of the current Part). -/
def withCurSection (st : BuilderState) (f : Section → Section) : BuilderState :=
  withCurPart st fun p => { p with sections := modifyLast f p.sections }

/-- Mutate the current Subsection (the last subsection of the current Section). -/
def withCurSubsection (st : BuilderState) (f : Subsection → Subsection) : BuilderState :=
  withCurSection st fun s => { s with subsections := modifyLast f s.subsections }

/-- Open a new Part: append it, make it current, close Section / Subsection /
Schedule (source lines 183–192 and the analogous branches). -/
def openPart (st : BuilderState) (num title : String) : BuilderState :=
  { st with
    doc := { st.doc with parts := st.doc.parts ++ [mkPart num title] },
    curPart := some st.doc.parts.length,
    curSection := false, curSubsection := false, curSchedule := false }

/-- Python truthiness of `not document["act_name"]`. -/
def actNameFalsy : Option String → Bool
  | none => true
  | some s => s == ""

/-- Final fallback of the loop body (source lines 315–342): defer a merged
`PART` suffix, then append the text to the innermost open context. -/
def appendCtx (st : BuilderState) (text : String) : BuilderState :=
  if st.curSubsection then
    withCurSubsection st fun ss =>
      if ss.paragraphs ≠ [] then
        let ps := modifyLast (fun pg => { pg with text := pg.text ++ " " ++ text }) ss.paragraphs
        { ss with paragraphs := ps }
      else { ss with subsection_text := ss.subsection_text ++ " " ++ text }
  else if st.curSection then
    withCurSection st fun sec =>
      if sec.subsections = [] then
        { sec with section_text := sec.section_text ++ " " ++ text }
      else
        let subs := modifyLast
          (fun ss => { ss with subsection_text := ss.subsection_text ++ " " ++ text })
          sec.subsections
        { sec with subsections := subs }
  else
    match st.curPart with
    | some _ =>
      withCurPart st fun p =>
        if p.sections = [] then
          match p.description with
          | none => { p with description := some text }
          | some d => { p with description := some (d ++ " " ++ text) }
        else p
    | none => st

/-- Plain-continuation handling: split off a merged PART header first. -/
def contStep (st : BuilderState) (text0 : String) : BuilderState :=
  match split_merged_content text0 with
  | (mainText, some sp) => appendCtx { st with pendingPartText := some sp } mainText
  | (_, none) => appendCtx st text0

/-- Paragraph branch (source lines 303–313). -/
def stepParagraphOnward (st : BuilderState) (text : String) : BuilderState :=
  match reMatch2 paragraphRE text with
  | some (label, ptext) =>
    if st.curSubsection then
      withCurSubsection st fun ss =>
        { ss with paragraphs := ss.paragraphs ++
            [{ label := "(" ++ label ++ ")", text := pyStrip ptext }] }
    else contStep st text
  | none => contStep st text

/-- Subsection branch (source lines 281–301). -/
def stepSubsectionOnward (st : BuilderState) (text : String) : BuilderState :=
  match reMatch2 subsectionRE text with
  | some (subsectionNumber, rest) =>
    if st.curSection then
      let pr := extract_amendment_info (pyStrip rest)
      let newSub : Subsection :=
        { subsection_number := "(" ++ subsectionNumber ++ ")",
          subsection_text := pr.1, paragraphs := [], amendment_info := pr.2,
          subsection_id := none, estimated_tokens := none }
      let st := withCurSection st fun sec =>
        { sec with subsections := sec.subsections ++ [newSub] }
      { st with curSubsection := true }
    else stepParagraphOnward st text
  | none => stepParagraphOnward st text

/-- Section branch (source lines 236–279), including the reclassification of
amendment entries and the synthetic PRELIMINARY part. -/
def stepSectionOnward (st : BuilderState) (text : String) : BuilderState :=
  match reMatch2 sectionRE text with
  | some (sectionNumber, rest) =>
    if text.length < 300 then
      let sectionTitle := pyStrip rest
      if is_amendment_entry text sectionNumber then
        { st with doc := { st.doc with amendments := st.doc.amendments ++
            [{ year := if sectionNumber.length == 4 then some sectionNumber else none,
               citation := if sectionTitle ≠ "" then clean_section_title sectionTitle
                           else text,
               full_text := text }] } }
      else
        let pr := extract_amendment_info sectionTitle
        let cleanedTitle := clean_section_title pr.1
        let st :=
          if st.curPart = none then
            { st with
              doc := { st.doc with
                parts := mkPart "PRELIMINARY" "Preliminary Sections" :: st.doc.parts },
              curPart := some 0 }
          else st
        let newSec : Section :=
          { section_number := sectionNumber, section_title := cleanedTitle,
            section_text := "", subsections := [], amendment_info := pr.2,
            section_id := none, estimated_tokens := none }
        let st := withCurPart st fun p => { p with sections := p.sections ++ [newSec] }
        { st with curSection := true, curSubsection := false }
    else stepSubsectionOnward st text
  | none => stepSubsectionOnward st text

/-- Definition branch (source lines 225–234). -/
def stepDefinitionOnward (st : BuilderState) (text : String) : BuilderState :=
  match reMatch2 defnRE text with
  | some (g1, g2) =>
    { st with doc := { st.doc with definitions := st.doc.definitions ++
        [{ term := pyStrip g1, definition := pyStrip g2 }] } }
  | none => stepSectionOnward st text

/-- Part branches: pending number lookahead, the three header formats, then
the amendment-noise skips (source lines 165–223). -/
def stepPartOnward (st : BuilderState) (text : String) : BuilderState :=
  match st.pendingPartNumber with
  | some num => openPart { st with pendingPartNumber := none } num (pyUpper (pyStrip text))
  | none =>
    match reMatch2 partRE text with
    | some (g1, g2) => openPart st (pyUpper g1) (pyUpper (pyStrip g2))
    | none =>
      match reMatch2 multilinePartRE text with
      | some (g1, g2) => openPart st (pyUpper g1) (pyUpper (pyStrip g2))
      | none =>
        match reMatch1 partNumOnlyRE text with
        | some g1 => { st with pendingPartNumber := some (pyUpper g1) }
        | none =>
          if reSearchBool sectionAmendHdrRE text then st
          else if (extract_amendment_info text).2.isSome && text.length < 100 then st
          else stepDefinitionOnward st text

/-- Schedule branches (source lines 137–158). -/
def stepScheduleOnward (st : BuilderState) (text : String) : BuilderState :=
  match reMatch2 schedRE text with
  | some (g1, g2) =>
    { st with
      doc := { st.doc with schedules := st.doc.schedules ++
        [{ schedule_id := g1, schedule_title := pyStrip g2, content := "" }] },
      curPart := none, curSection := false, curSubsection := false,
      curSchedule := true }
  | none =>
    if st.curSchedule then
      if reMatchBool partPrefixRE text then
        stepPartOnward { st with curSchedule := false } text
      else
        let scheds := modifyLast
          (fun sch => { sch with content := sch.content ++ " " ++ text })
          st.doc.schedules
        { st with doc := { st.doc with schedules := scheds } }
    else stepPartOnward st text

/-- Act-metadata and consolidation/amendment-date detection (source lines
123–135); these blocks mutate the document and fall through. -/
def metaUpdate (doc : Document) (text : String) : Document :=
  let doc :=
    if actNameFalsy doc.act_name && (strContains text "Act" || strContains text "S.O.") then
      let doc :=
        if strContains text "S.O." && text.length < 300 then { doc with citation := some text }
        else doc
      if text.length < 200 && strContains text "Act" && !strContains (pyUpper text) "PART" then
        { doc with act_name := some text }
      else doc
    else doc
  if strContains text "Consolidation Period" || strContains text "Last amendment" then
    if strContains text "Consolidation" then { doc with consolidation_date := some text }
    else if strContains text "amendment" then { doc with last_amendment := some text }
    else doc
  else doc

/-- Loop body from the act-metadata detection on (source lines 123–342). -/
def processText (st : BuilderState) (text : String) : BuilderState :=
  stepScheduleOnward { st with doc := metaUpdate st.doc text } text

/-- One iteration of the element loop: strip, skip empty and large Table
elements, replay a pending split-off PART text. -/
def parseElement (st : BuilderState) (el : Element) : BuilderState :=
  let text := pyStrip el.text
  if text == "" then st
  else if el.category == "Table" && text.length > 1000 then st
  else
    match st.pendingPartText with
    | some pt => processText { st with pendingPartText := none } pt
    | none => processText st text

/-- The initial document (source lines 90–100). -/
def initDocument : Document :=
  { act_name := none, jurisdiction := "Ontario", citation := none,
    consolidation_date := none, last_amendment := none, parts := [],
    definitions := [], schedules := [], amendments := [], source_url := none,
    bilingual_terms := none, metadata := none }

/-- The initial loop state (source lines 102–107). -/
def initState : BuilderState :=
  { doc := initDocument, curPart := none, curSection := false,
    curSubsection := false, curSchedule := false, pendingPartText := none,
    pendingPartNumber := none }

/-- Terminal cleanup (source lines 344–349): strip every Section and
Subsection text. -/
def finalizeDoc (doc : Document) : Document :=
  { doc with parts := doc.parts.map fun p =>
      { p with sections := p.sections.map fun s =>
          { s with section_text := pyStrip s.section_text,
                   subsections := s.subsections.map fun ss =>
                     { ss with subsection_text := pyStrip ss.subsection_text } } } }

/-- `parse_legal_document`, shallowly embedded over the element stream (the
binary DOCX decoding of `partition_docx` is out of scope; the stream of
`{category, text}` elements is the input). -/
def parse_legal_document (elements : List Element) : Document :=
  finalizeDoc (elements.foldl parseElement initState).doc

/-! ## Post-processor (`post_processor.py`) -/

/-- `fix_duplicate_section_numbers`, inner loop over one Part's sections.
The `defaultdict(int)` occurrence counter is a total function `String → Nat`. -/
def fixDupGo (counter : String → Nat) : List Section → List Section
  | [] => []
  | s :: rest =>
    if s.section_number.data.contains '.' then s :: fixDupGo counter rest
    else
      let occurrence := counter s.section_number + 1
      let counter' := fun m => if m = s.section_number then occurrence else counter m
      if occurrence > 1 then
        { s with section_number :=
            s.section_number ++ "." ++ toString (occurrence - 1) } :: fixDupGo counter' rest
      else s :: fixDupGo counter' rest

/-- `fix_duplicate_section_numbers(parts)`: per Part, rewrite the 2nd, 3rd, …
occurrence of a section number `N` to `N.1`, `N.2`, …  Numbers that already
contain a decimal point are skipped. -/
def fix_duplicate_section_numbers (parts : List Part) : List Part :=
  parts.map fun p => { p with sections := fixDupGo (fun _ => 0) p.sections }

/-- Dropping a prefix does not lengthen a list (termination helper). -/
theorem length_dropWhile_le (p : α → Bool) (l : List α) :
    (l.dropWhile p).length ≤ l.length :=
  (List.dropWhile_suffix p).length_le

/-- `re.sub(r'\s+', ' ', ·)`: replace each maximal whitespace run by one
space. -/
def collapseWs : List Char → List Char
  | [] => []
  | c :: cs =>
    if pyIsSpace c then ' ' :: collapseWs (cs.dropWhile pyIsSpace)
    else c :: collapseWs cs
  termination_by l => l.length
  decreasing_by
  all_goals simp only [List.length_cons]
  all_goals first
    | exact Nat.lt_succ_of_le (length_dropWhile_le _ _)
    | exact Nat.lt_succ_self _

/-- `re.sub(r'\s+', ' ', s).strip()` — the normalization applied to every
field by `clean_section_text_whitespace`. -/
def normWs (s : String) : String := pyStrip ⟨collapseWs s.data⟩

/-- `clean_section_text_whitespace(parts)` (source lines 86–111). -/
def clean_section_text_whitespace (parts : List Part) : List Part :=
  parts.map fun part =>
    let part :=
      match part.description with
      | some d => { part with description := some (normWs d) }
      | none => part
    { part with sections := part.sections.map fun sec =>
        let sec :=
          if sec.section_text ≠ "" then { sec with section_text := normWs sec.section_text }
          else sec
        let sec :=
          if sec.section_title ≠ "" then { sec with section_title := normWs sec.section_title }
          else sec
        { sec with subsections := sec.subsections.map fun ss =>
            let ss :=
              if ss.subsection_text ≠ "" then
                { ss with subsection_text := normWs ss.subsection_text }
              else ss
            { ss with paragraphs := ss.paragraphs.map fun pg =>
                if pg.text ≠ "" then { pg with text := normWs pg.text } else pg } } }

/-! ## Enhancer (`enhancer.py`) -/

/-- `add_hierarchical_section_ids(document)` (source lines 8–27). -/
def add_hierarchical_section_ids (document : Document) : Document :=
  { document with parts := document.parts.map fun part =>
      { part with sections := part.sections.map fun sec =>
          { sec with
            section_id := some (part.part_number ++ "." ++ sec.section_number),
            subsections := sec.subsections.map fun ss =>
              { ss with subsection_id := some (part.part_number ++ "." ++
                  sec.section_number ++ "." ++ ss.subsection_number) } } } }

/-- Python `re.findall`: all non-overlapping matches, left to right, resuming
at each match's end (one past it for an empty match). -/
def reFindall (r : RE) (s : List Char) : List Caps :=
  match reSearchAux r s 0 with
  | none => []
  | some m =>
    let advance := max m.stop (m.start + 1)
    if s.length = 0 then [m.caps]
    else m.caps :: reFindall r (s.drop advance)
  termination_by s.length
  decreasing_by
    simp only [List.length_drop]
    omega

/-- `extract_bilingual_terms(document)` (source lines 30–54). -/
def extract_bilingual_terms (document : Document) : Document :=
  let terms := document.parts.flatMap fun part =>
    part.sections.flatMap fun sec =>
      (reFindall bilingualRE sec.section_text.data).map fun caps =>
        { english := pyStrip ((capStr caps 1).getD ""),
          french := pyStrip ((capStr caps 2).getD ""),
          section_id := sec.section_id.getD
            (part.part_number ++ "." ++ sec.section_number) : BilingualTerm }
  { document with bilingual_terms := some terms }

/-- `estimate_token_counts(document)` (source lines 57–91). -/
def estimate_token_counts (document : Document) : Document :=
  let doc := { document with parts := document.parts.map fun part =>
    { part with sections := part.sections.map fun sec =>
        { sec with
          estimated_tokens := some (sec.section_text.length / 4),
          subsections := sec.subsections.map fun ss =>
            { ss with estimated_tokens := some (ss.subsection_text.length / 4) } } } }
  let recs := document.parts.flatMap fun part =>
    part.sections.filterMap fun sec =>
      let estimated := sec.section_text.length / 4
      if estimated > 1500 then
        some { section_id := sec.section_id, section_number := sec.section_number,
               section_title := sec.section_title, estimated_tokens := estimated,
               recommendation := "Split by subsections for better retrieval" : ChunkingRec }
      else none
  if recs ≠ [] then
    let md := doc.metadata.getD emptyMetadata
    { doc with metadata := some { md with chunking_recommendations := recs } }
  else doc

/-- `add_part_summaries(document)` (source lines 94–108). -/
def add_part_summaries (document : Document) : Document :=
  { document with parts := document.parts.map fun part =>
      let firstTitles :=
        ((part.sections.take 3).filter fun s => s.section_title ≠ "").map Section.section_title
      let hint := "Covers: " ++ String.intercalate ", " (firstTitles.take 2)
      let part :=
        if part.sections ≠ [] then { part with summary_hint := some hint }
        else part
      let subTotal := (part.sections.map fun s => s.subsections.length).sum
      { part with
        total_sections := some part.sections.length,
        total_subsections := some subTotal } }

/-- `add_retrieval_metadata(document)` (source lines 111–140). -/
def add_retrieval_metadata (document : Document) : Document :=
  let totalSections := (document.parts.map fun p => p.sections.length).sum
  let totalSubsections :=
    (document.parts.flatMap fun p => p.sections.map fun s => s.subsections.length).sum
  let totalText :=
    (document.parts.flatMap fun p => p.sections.map fun s => s.section_text.length).sum
  let md := document.metadata.getD emptyMetadata
  { document with metadata := some { md with
      total_parts := some document.parts.length,
      total_sections := some totalSections,
      total_subsections := some totalSubsections,
      total_characters := some totalText,
      estimated_total_tokens := some (totalText / 4),
      recommended_chunk_strategy := some "section or subsection level",
      optimal_for := ["semantic search", "RAG retrieval", "legal citation lookup"] } }

/-- `enhance_document` (source lines 143–187, without the file I/O): the five
enhancement passes in their fixed order. -/
def enhance_document (document : Document) : Document :=
  add_retrieval_metadata (add_part_summaries (estimate_token_counts
    (extract_bilingual_terms (add_hierarchical_section_ids document))))

/-! ## Chunk flattener (`flatten_for_rag.py` and `config.py`) -/

/-- `MIN_CHUNK_LENGTH` of `config.py` (line 77). -/
def MIN_CHUNK_LENGTH : Nat := 20

/-- `JURISDICTION_ABBR` of `config.py` (line 80). -/
def JURISDICTION_ABBR : String := "ONT"

/-- `ACT_ABBR` of `config.py` (line 81). -/
def ACT_ABBR : String := "RTA_2006"

/-- Python truthiness of an optional string argument. -/
def optTruthy : Option String → Bool
  | none => false
  | some s => s ≠ ""

/-- `generate_chunk_id(jurisdiction_abbr, act_abbr, part_num, section_num,
subsection_num=None)` (source lines 26–36). -/
def generate_chunk_id (jurisdictionAbbr actAbbr partNum sectionNum : String)
    (subsectionNum : Option String) : String :=
  if optTruthy subsectionNum then
    let subsectionClean := pyStripChars (subsectionNum.getD "") ['(', ')']
    jurisdictionAbbr ++ "_" ++ actAbbr ++ "_" ++ partNum ++ "_" ++ sectionNum ++
      "_" ++ subsectionClean
  else
    jurisdictionAbbr ++ "_" ++ actAbbr ++ "_" ++ partNum ++ "_" ++ sectionNum

/-- The denormalized metadata carried by a chunk. -/
structure ChunkMeta where
  act_name : Option String
  jurisdiction : String
  citation : Option String
  part_number : String
  part_title : String
  section_id : String
  section_number : String
  section_title : String
  subsection_number : Option String
  source_url : String
  tokens : Nat
  chunk_type : String
  amendment_info : Option AmendmentInfo
deriving DecidableEq

/-- One retrieval unit emitted by the flattener. -/
structure Chunk where
  id : String
  text : String
  metadata : ChunkMeta
deriving DecidableEq

/-- The chunk built for one Subsection (source lines 83–117), amendment info
falling back from the Subsection to its Section. -/
def chunkOfSubsection (document : Document) (part : Part) (sec : Section)
    (ss : Subsection) : Chunk :=
  { id := generate_chunk_id JURISDICTION_ABBR ACT_ABBR part.part_number
      sec.section_number (some ss.subsection_number),
    text := ss.subsection_text,
    metadata :=
      { act_name := document.act_name, jurisdiction := document.jurisdiction,
        citation := document.citation, part_number := part.part_number,
        part_title := part.part_title, section_id := sec.section_id.getD "",
        section_number := sec.section_number, section_title := sec.section_title,
        subsection_number := some ss.subsection_number,
        source_url := document.source_url.getD "",
        tokens := ss.subsection_text.length / 4, chunk_type := "subsection",
        amendment_info :=
          match ss.amendment_info with
          | some a => some a
          | none => sec.amendment_info } }

/-- The chunk built for a Section without subsections (source lines 119–153). -/
def chunkOfSection (document : Document) (part : Part) (sec : Section) : Chunk :=
  { id := generate_chunk_id JURISDICTION_ABBR ACT_ABBR part.part_number
      sec.section_number none,
    text := sec.section_text,
    metadata :=
      { act_name := document.act_name, jurisdiction := document.jurisdiction,
        citation := document.citation, part_number := part.part_number,
        part_title := part.part_title, section_id := sec.section_id.getD "",
        section_number := sec.section_number, section_title := sec.section_title,
        subsection_number := none,
        source_url := document.source_url.getD "",
        tokens := sec.section_text.length / 4, chunk_type := "section",
        amendment_info := sec.amendment_info } }

/-- `flatten_to_rag_chunks(document)` (source lines 44–155): one chunk per
Subsection, or per Section when it has none, skipping nodes whose text is
empty or shorter than `MIN_CHUNK_LENGTH`. -/
def flatten_to_rag_chunks (document : Document) : List Chunk :=
  document.parts.flatMap fun part =>
    part.sections.flatMap fun sec =>
      if sec.subsections ≠ [] then
        sec.subsections.filterMap fun ss =>
          if ss.subsection_text == "" || ss.subsection_text.length < MIN_CHUNK_LENGTH then
            none
          else some (chunkOfSubsection document part sec ss)
      else
        if sec.section_text == "" || sec.section_text.length < MIN_CHUNK_LENGTH then []
        else [chunkOfSection document part sec]

/-! ## Claim-side definitions

These follow the words of the specification (not the code) and are compared
with the embedded functions in the theorems below. -/

/-- Spec-side duplicate-number disambiguation at one position: the occurrence
index of the section at position `i` is the count of earlier sections
carrying the same raw number (offset by `counter`, which is zero at the top
level); the `k+1`-st occurrence is rewritten to `N.k`; numbers already
containing a decimal point are skipped.  Expressed positionally over the
input list, independent of any running state. -/
def dupTransform (counter : String → Nat) (sections : List Section) (i : Nat)
    (s : Section) : Section :=
  if s.section_number.data.contains '.' then s
  else
    let k := counter s.section_number +
      ((sections.take i).filter fun t => t.section_number = s.section_number).length
    if k = 0 then s
    else { s with section_number := s.section_number ++ "." ++ toString k }

/-- A string is whitespace-normalized: every whitespace character is a plain
space, no two adjacent characters are both whitespace, and it neither starts
nor ends with whitespace. -/
def noDoubleWs : List Char → Bool
  | [] => true
  | [_] => true
  | a :: b :: rest => !(pyIsSpace a && pyIsSpace b) && noDoubleWs (b :: rest)

/-- Whitespace-normal form predicate used to state the claim about
`clean_section_text_whitespace` (collapsed runs, trimmed ends). -/
def wsNormB (s : String) : Bool :=
  s.data.all (fun c => !pyIsSpace c || c == ' ') && noDoubleWs s.data &&
    (match s.data.head? with
     | some c => !pyIsSpace c
     | none => true) &&
    (match s.data.getLast? with
     | some c => !pyIsSpace c
     | none => true)

/-- Erase every derived field the Enhancer may add, keeping all raw text:
used to state that the Enhancer only appends derived fields. -/
def eraseDerived (document : Document) : Document :=
  { document with
    bilingual_terms := none, metadata := none,
    parts := document.parts.map fun part =>
      { part with
        summary_hint := none, total_sections := none, total_subsections := none,
        sections := part.sections.map fun sec =>
          { sec with
            section_id := none, estimated_tokens := none,
            subsections := sec.subsections.map fun ss =>
              { ss with subsection_id := none, estimated_tokens := none } } } }

/-- Number of chunks the claim says the Flattener emits: one per Subsection
whose text reaches `MIN_CHUNK_LENGTH`, one per subsection-less Section whose
text reaches it, none otherwise. -/
def chunkCountSpec (document : Document) : Nat :=
  (document.parts.map fun part =>
    (part.sections.map fun sec =>
      if sec.subsections = [] then
        if MIN_CHUNK_LENGTH ≤ sec.section_text.length then 1 else 0
      else
        sec.subsections.countP fun ss =>
          MIN_CHUNK_LENGTH ≤ ss.subsection_text.length).sum).sum

/-- Part-number shape produced by the pipeline: a non-empty string of roman
numeral letters or digits, or the synthetic `PRELIMINARY`. -/
def partShape (s : String) : Bool :=
  (!s.data.isEmpty && s.data.all fun c => "IVXLC".data.contains c || pyIsDigit c) ||
    s == "PRELIMINARY"

/-- Section-number shape produced by the pipeline: digits, optionally with
one `.k` suffix (`k` a non-empty digit string). -/
def secShape (s : String) : Bool :=
  match s.data.span pyIsDigit with
  | (d1, []) => !d1.isEmpty
  | (d1, c :: d2) => !d1.isEmpty && c == '.' && !d2.isEmpty && d2.all pyIsDigit

/-- Subsection-number shape produced by the pipeline: `(n)` with `n` a
non-empty digit string. -/
def subShape (s : String) : Bool :=
  match s.data with
  | '(' :: rest =>
    !rest.dropLast.isEmpty && rest.dropLast.all pyIsDigit && rest.getLast? == some ')'
  | _ => false

/-- A Section carrying only a number (concrete test fixture). -/
def bareSec (n : String) : Section :=
  { section_number := n, section_title := "", section_text := "", subsections := [],
    amendment_info := none, section_id := none, estimated_tokens := none }

/-- A Part carrying a number, title and sections (concrete test fixture). -/
def barePart (num title : String) (sections : List Section) : Part :=
  { part_number := num, part_title := title, sections := sections, description := none,
    summary_hint := none, total_sections := none, total_subsections := none }

/-! ## Theorems -/

/-! ### Duplicate-number disambiguation (C3) -/

theorem fixDupGo_cons_dot (counter : String → Nat) (s : Section) (rest : List Section)
    (h : s.section_number.data.contains '.' = true) :
    fixDupGo counter (s :: rest) = s :: fixDupGo counter rest := by
  simp only [fixDupGo]
  rw [if_pos h]

theorem fixDupGo_cons_nodot (counter : String → Nat) (s : Section) (rest : List Section)
    (h : s.section_number.data.contains '.' = false) :
    fixDupGo counter (s :: rest) =
      (if counter s.section_number = 0 then s
       else { s with section_number :=
                s.section_number ++ "." ++ toString (counter s.section_number) }) ::
      fixDupGo (fun m => if m = s.section_number then counter s.section_number + 1
                         else counter m) rest := by
  have h' : ¬(s.section_number.data.contains '.' = true) := by
    rw [h]
    exact Bool.false_ne_true
  simp only [fixDupGo]
  rw [if_neg h']
  by_cases h2 : counter s.section_number = 0
  · rw [if_neg (by omega), if_pos h2]
  · rw [if_pos (by omega), if_neg h2]
    simp only [Nat.add_sub_cancel]


theorem bool_ne_true {b : Bool} (h : b = false) : ¬(b = true) := by
  simp [h]

theorem fixDupGo_length (sections : List Section) :
    ∀ counter, (fixDupGo counter sections).length = sections.length := by
  induction sections with
  | nil => intro counter; rfl
  | cons s rest ih =>
    intro counter
    by_cases h : s.section_number.data.contains '.' = true
    · rw [fixDupGo_cons_dot counter s rest h]
      simp [ih]
    · rw [fixDupGo_cons_nodot counter s rest (Bool.eq_false_iff.2 h)]
      simp [ih]

theorem fixDupGo_getElem (sections : List Section) :
    ∀ (counter : String → Nat) (i : Nat) (hi : i < sections.length),
      (fixDupGo counter sections)[i]? =
        some (dupTransform counter sections i sections[i]) := by
  induction sections with
  | nil => intro counter i hi; exact absurd hi (Nat.not_lt_zero i)
  | cons s rest ih =>
    intro counter i hi
    by_cases h : s.section_number.data.contains '.' = true
    · rw [fixDupGo_cons_dot counter s rest h]
      match i, hi with
      | 0, hi =>
        rw [List.getElem?_cons_zero, List.getElem_cons_zero]
        unfold dupTransform
        rw [if_pos h]
      | j + 1, hi =>
        have hj : j < rest.length := Nat.lt_of_succ_lt_succ hi
        rw [List.getElem?_cons_succ, ih counter j hj, List.getElem_cons_succ]
        congr 1
        unfold dupTransform
        by_cases ht : (rest[j]).section_number.data.contains '.' = true
        · rw [if_pos ht, if_pos ht]
        · have hq : ¬(s.section_number = (rest[j]).section_number) := by
            intro he
            rw [he] at h
            exact ht h
          rw [if_neg (bool_ne_true (Bool.eq_false_iff.2 ht)),
              if_neg (bool_ne_true (Bool.eq_false_iff.2 ht)),
              List.take_succ_cons,
              List.filter_cons_of_neg (by simp only [decide_eq_true_eq]; exact hq)]
    · have hb := Bool.eq_false_iff.2 h
      rw [fixDupGo_cons_nodot counter s rest hb]
      match i, hi with
      | 0, hi =>
        rw [List.getElem?_cons_zero, List.getElem_cons_zero]
        unfold dupTransform
        rw [if_neg (bool_ne_true hb)]
        simp only [List.take_zero, List.filter_nil, List.length_nil, Nat.add_zero]
      | j + 1, hi =>
        have hj : j < rest.length := Nat.lt_of_succ_lt_succ hi
        rw [List.getElem?_cons_succ, ih _ j hj, List.getElem_cons_succ]
        congr 1
        unfold dupTransform
        beta_reduce
        by_cases ht : (rest[j]).section_number.data.contains '.' = true
        · rw [if_pos ht, if_pos ht]
        · rw [if_neg (bool_ne_true (Bool.eq_false_iff.2 ht)),
              if_neg (bool_ne_true (Bool.eq_false_iff.2 ht)), List.take_succ_cons]
          by_cases he : (rest[j]).section_number = s.section_number
          · rw [List.filter_cons_of_pos (by simp only [decide_eq_true_eq]; exact he.symm),
                if_pos he, he]
            simp only [List.length_cons]
            rw [show counter s.section_number + 1 +
                  (List.filter (fun t => decide (t.section_number = s.section_number))
                    (List.take j rest)).length =
                counter s.section_number +
                  ((List.filter (fun t => decide (t.section_number = s.section_number))
                    (List.take j rest)).length + 1) from by omega]
          · rw [List.filter_cons_of_neg
                  (by simp only [decide_eq_true_eq]; exact fun hx => he hx.symm),
                if_neg he]


/-- C3: duplicate-section-number disambiguation is deterministic and
order-preserving. -/
theorem c3_duplicate_disambiguation :
    (∀ parts : List Part, fix_duplicate_section_numbers parts =
        parts.map fun p => { p with sections := fixDupGo (fun _ => 0) p.sections }) ∧
    (∀ sections : List Section,
        (fixDupGo (fun _ => 0) sections).length = sections.length) ∧
    (∀ (sections : List Section) (i : Nat) (hi : i < sections.length),
        (fixDupGo (fun _ => 0) sections)[i]? =
          some (dupTransform (fun _ => 0) sections i sections[i])) ∧
    fix_duplicate_section_numbers
        [barePart "I" "T" [bareSec "5", bareSec "7", bareSec "5", bareSec "5"]] =
      [barePart "I" "T" [bareSec "5", bareSec "7", bareSec "5.1", bareSec "5.2"]] :=
  ⟨fun _ => rfl, fun sections => fixDupGo_length sections _,
   fun sections => fixDupGo_getElem sections _, by decide⟩

/-- C3 witness: the positional formula evaluated at the third section of the
`["5", "7", "5", "5"]` fixture. -/
theorem c3_duplicate_disambiguation_witness :
    (fixDupGo (fun _ => 0) [bareSec "5", bareSec "7", bareSec "5", bareSec "5"])[2]? =
      some (dupTransform (fun _ => 0)
        [bareSec "5", bareSec "7", bareSec "5", bareSec "5"] 2
        ([bareSec "5", bareSec "7", bareSec "5", bareSec "5"])[2]) :=
  c3_duplicate_disambiguation.2.2.1
    [bareSec "5", bareSec "7", bareSec "5", bareSec "5"] 2 (by decide)

/-- C1: the six-fragment stream `["PART I – INTRODUCTION", "1. Purposes of
Act", "This Act applies to...", "(1) The purposes are", "(a) to protect
tenants", "(b) to balance rights"]` (non-empty non-Table elements) builds one
Part `I` / `INTRODUCTION` holding one Section `1` / `Purposes of Act` holding
one Subsection `(1)` with text `The purposes are` holding exactly the
Paragraphs `(a) to protect tenants` and `(b) to balance rights`. -/
theorem c1_end_to_end_hierarchy :
    (parse_legal_document
      [⟨"Text", "PART I – INTRODUCTION"⟩,
       ⟨"Text", "1. Purposes of Act"⟩,
       ⟨"Text", "This Act applies to..."⟩,
       ⟨"Text", "(1) The purposes are"⟩,
       ⟨"Text", "(a) to protect tenants"⟩,
       ⟨"Text", "(b) to balance rights"⟩]).parts =
    [{ part_number := "I", part_title := "INTRODUCTION",
       sections :=
        [{ section_number := "1", section_title := "Purposes of Act",
           section_text := "This Act applies to...",
           subsections :=
            [{ subsection_number := "(1)", subsection_text := "The purposes are",
               paragraphs :=
                [{ label := "(a)", text := "to protect tenants" },
                 { label := "(b)", text := "to balance rights" }],
               amendment_info := none, subsection_id := none, estimated_tokens := none }],
           amendment_info := none, section_id := none, estimated_tokens := none }],
       description := none, summary_hint := none, total_sections := none,
       total_subsections := none }] := by
  decide

/-- C2: on `"Rent increase guideline. 2013, c. 3, s. 20 - 01/06/2014"` the
amendment extractor returns the cleaned text `"Rent increase guideline."`
and the record with year 2013, chapter 3, section 20 and effective date
01/06/2014 (plus the raw citation string). -/
theorem c2_amendment_roundtrip :
    extract_amendment_info "Rent increase guideline. 2013, c. 3, s. 20 - 01/06/2014" =
      ("Rent increase guideline.",
       some { year := "2013", chapter := "3",
              citation := "2013, c. 3, s. 20 - 01/06/2014",
              sectionRef := some "20", scheduleRef := none,
              effective_date := some "01/06/2014" }) := by
  decide

/-- C4 counterexample: the fragment `"2013, c. 3, s. 20 - 01/06/2014"` is
shorter than 100 characters and carries a structured amendment citation, yet
after processing it `Document.amendments` is empty — the builder drops such
fragments without appending them anywhere. -/
theorem c4_counterexample_not_appended :
    (extract_amendment_info "2013, c. 3, s. 20 - 01/06/2014").2.isSome = true ∧
    ("2013, c. 3, s. 20 - 01/06/2014" : String).length < 100 ∧
    (parse_legal_document [⟨"Text", "2013, c. 3, s. 20 - 01/06/2014"⟩]).amendments = [] ∧
    (parse_legal_document [⟨"Text", "2013, c. 3, s. 20 - 01/06/2014"⟩]).parts = [] := by
  decide

/-- C5 counterexample: while `act_name` is still unset, a second
`S.O.`-marker fragment overwrites a `Document.citation` that already holds a
value, so a set citation is not immutable. -/
theorem c5_counterexample_citation_overwritten :
    (parseElement initState ⟨"Text", "S.O. 2006, c. 17"⟩).doc.citation =
      some "S.O. 2006, c. 17" ∧
    (parseElement (parseElement initState ⟨"Text", "S.O. 2006, c. 17"⟩)
        ⟨"Text", "S.O. 1990, c. 1"⟩).doc.citation = some "S.O. 1990, c. 1" := by
  decide

/-- C6 counterexample: the whitespace pass leaves `part_title` (a title field
at the Part level) untouched, so not every title field of all four tree
levels is normalized. -/
theorem c6_counterexample_part_title :
    clean_section_text_whitespace [barePart "I" "A  B" []] = [barePart "I" "A  B" []] ∧
    wsNormB (barePart "I" "A  B" []).part_title = false := by
  decide

/-- C9: hierarchical IDs are a pure function of the part / section /
subsection numbers, and re-running the Enhancer's ID pass on its own output
changes nothing. -/
theorem c9_hierarchical_ids :
    (∀ document : Document,
        add_hierarchical_section_ids (add_hierarchical_section_ids document) =
          add_hierarchical_section_ids document) ∧
    (∀ document : Document,
        ((add_hierarchical_section_ids document).parts.all fun part =>
          part.sections.all fun sec =>
            (sec.section_id == some (part.part_number ++ "." ++ sec.section_number)) &&
            sec.subsections.all fun ss =>
              ss.subsection_id == some (part.part_number ++ "." ++ sec.section_number ++
                "." ++ ss.subsection_number)) = true) := by
  constructor
  · intro document
    unfold add_hierarchical_section_ids
    simp only [List.map_map]
    congr 1
    apply List.map_congr_left
    intro part _
    simp only [Function.comp_apply, List.map_map]
    congr 1
    apply List.map_congr_left
    intro sec _
    simp only [Function.comp_apply, List.map_map]
    congr 1
  · intro document
    rw [List.all_eq_true]
    intro part hp
    simp only [add_hierarchical_section_ids, List.mem_map] at hp
    obtain ⟨part0, _, rfl⟩ := hp
    rw [List.all_eq_true]
    intro sec hs
    simp only [List.mem_map] at hs
    obtain ⟨sec0, _, rfl⟩ := hs
    simp only [beq_self_eq_true, Bool.true_and]
    rw [List.all_eq_true]
    intro ss hss
    simp only [List.mem_map] at hss
    obtain ⟨ss0, _, rfl⟩ := hss
    simp

theorem bool_of_not_eq_false {b : Bool} (h : (!b) = false) : b = true := by
  cases b
  · exact absurd h (by decide)
  · rfl

theorem chunk_keep_eq (t : String) :
    (!(t == "" || decide (t.length < MIN_CHUNK_LENGTH))) =
      decide (MIN_CHUNK_LENGTH ≤ t.length) := by
  by_cases he : t = ""
  · subst he
    decide
  · have hne : (t == "") = false := by simpa using he
    by_cases h : t.length < MIN_CHUNK_LENGTH
    · simp [hne, h, Nat.not_le.2 h]
    · simp [hne, h, Nat.le_of_not_lt h]

theorem length_filterMap_keep {α β : Type} (bad : α → Bool) (g : α → β) (l : List α) :
    (l.filterMap fun a => if bad a then none else some (g a)).length =
      l.countP fun a => !bad a := by
  induction l with
  | nil => rfl
  | cons a l ih =>
    rw [List.filterMap_cons]
    by_cases h : bad a
    · simp [h, ih, List.countP_cons]
    · simp [h, ih, List.countP_cons]

/-- C7: the Flattener emits exactly one chunk per Subsection whose text
reaches the minimum length, one per subsection-less Section whose text
reaches it, and none for shorter nodes; every emitted chunk's text reaches
the minimum. -/
theorem c7_min_length_filter :
    ∀ document : Document,
      (flatten_to_rag_chunks document).length = chunkCountSpec document ∧
      ((flatten_to_rag_chunks document).all fun c =>
        decide (MIN_CHUNK_LENGTH ≤ c.text.length)) = true := by
  intro document
  constructor
  · unfold flatten_to_rag_chunks chunkCountSpec
    rw [List.length_flatMap]
    apply congrArg List.sum
    apply List.map_congr_left
    intro part _
    simp only [Function.comp_apply]
    rw [List.length_flatMap]
    apply congrArg List.sum
    apply List.map_congr_left
    intro sec _
    simp only [Function.comp_apply]
    by_cases hsub : sec.subsections = []
    · rw [if_neg (by simp [hsub]), if_pos hsub]
      by_cases hle : MIN_CHUNK_LENGTH ≤ sec.section_text.length
      · have hb : (sec.section_text == "" ||
            decide (sec.section_text.length < MIN_CHUNK_LENGTH)) = false := by
          have h2 := chunk_keep_eq sec.section_text
          rw [decide_eq_true hle] at h2
          simpa using h2
        rw [if_neg (bool_ne_true hb), if_pos hle]
        rfl
      · have hb : (sec.section_text == "" ||
            decide (sec.section_text.length < MIN_CHUNK_LENGTH)) = true := by
          have h2 := chunk_keep_eq sec.section_text
          rw [decide_eq_false hle] at h2
          exact bool_of_not_eq_false h2
        rw [if_pos hb, if_neg hle]
        rfl
    · rw [if_pos hsub, if_neg hsub]
      rw [length_filterMap_keep
            (fun ss => ss.subsection_text == "" ||
              decide (ss.subsection_text.length < MIN_CHUNK_LENGTH))
            (fun ss => chunkOfSubsection document part sec ss)]
      apply List.countP_congr
      intro ss _
      rw [chunk_keep_eq]
  · rw [List.all_eq_true]
    intro c hc
    unfold flatten_to_rag_chunks at hc
    simp only [List.mem_flatMap] at hc
    obtain ⟨part, _, sec, _, hc⟩ := hc
    by_cases hsub : sec.subsections ≠ []
    · rw [if_pos hsub] at hc
      simp only [List.mem_filterMap] at hc
      obtain ⟨ss, _, hss⟩ := hc
      by_cases hb : (ss.subsection_text == "" ||
          decide (ss.subsection_text.length < MIN_CHUNK_LENGTH)) = true
      · rw [if_pos hb] at hss
        exact absurd hss (by simp)
      · rw [if_neg hb] at hss
        have hc2 := Option.some.inj hss
        have hkeep := chunk_keep_eq ss.subsection_text
        rw [Bool.eq_false_iff.2 hb] at hkeep
        rw [← hc2]
        simpa using hkeep.symm
    · rw [if_neg hsub] at hc
      by_cases hb : (sec.section_text == "" ||
          decide (sec.section_text.length < MIN_CHUNK_LENGTH)) = true
      · rw [if_pos hb] at hc
        exact absurd hc (List.not_mem_nil c)
      · rw [if_neg hb] at hc
        have hc2 : c = chunkOfSection document part sec := by
          simpa using hc
        have hkeep := chunk_keep_eq sec.section_text
        rw [Bool.eq_false_iff.2 hb] at hkeep
        rw [hc2]
        simpa using hkeep.symm

/-! ### Whitespace normalization and the Enhancer (C6) -/

theorem collapse_all (l : List Char) :
    ((collapseWs l).all fun c => !pyIsSpace c || c == ' ') = true := by
  induction l using collapseWs.induct with
  | case1 => simp [collapseWs]
  | case2 c cs hc ih =>
    simp only [collapseWs, hc, if_pos]
    simp [ih]
  | case3 c cs hc ih =>
    simp only [collapseWs, hc, if_neg]
    simp [ih, hc]

theorem noDoubleWs_cons (a : Char) (xs : List Char) :
    noDoubleWs (a :: xs) =
      ((xs.head?.all fun b => !(pyIsSpace a && pyIsSpace b)) && noDoubleWs xs) := by
  cases xs with
  | nil => simp [noDoubleWs]
  | cons b rest => simp [noDoubleWs]

theorem head_dropWhile_false (p : Char → Bool) (l : List Char) :
    ((l.dropWhile p).head?.all fun c => !p c) = true := by
  induction l with
  | nil => rfl
  | cons a l ih =>
    rw [List.dropWhile_cons]
    by_cases h : p a
    · simp [h, ih]
    · simp [h]

theorem collapse_head (l : List Char) :
    (collapseWs l).head? = l.head?.map fun c => if pyIsSpace c then ' ' else c := by
  cases l with
  | nil => simp [collapseWs]
  | cons c cs =>
    by_cases h : pyIsSpace c
    · simp [collapseWs, h]
    · simp [collapseWs, h]

theorem noDouble_collapse (l : List Char) : noDoubleWs (collapseWs l) = true := by
  induction l using collapseWs.induct with
  | case1 => simp [collapseWs, noDoubleWs]
  | case2 c cs hc ih =>
    rw [show collapseWs (c :: cs) = ' ' :: collapseWs (cs.dropWhile pyIsSpace) by
          simp [collapseWs, hc]]
    rw [noDoubleWs_cons, ih, Bool.and_true, collapse_head]
    have hh := head_dropWhile_false pyIsSpace cs
    cases hd : (cs.dropWhile pyIsSpace).head? with
    | none => rfl
    | some d =>
      rw [hd] at hh
      have h3 : (!pyIsSpace d) = true := hh
      have hds : pyIsSpace d = false := by
        cases hpd : pyIsSpace d
        · rfl
        · rw [hpd] at h3; exact absurd h3 (by decide)
      show (!(pyIsSpace ' ' && pyIsSpace (if pyIsSpace d = true then ' ' else d))) = true
      rw [if_neg (bool_ne_true hds), hds]
      decide
  | case3 c cs hc ih =>
    rw [show collapseWs (c :: cs) = c :: collapseWs cs by simp [collapseWs, hc]]
    rw [noDoubleWs_cons, ih, Bool.and_true]
    cases hd : (collapseWs cs).head? with
    | none => rfl
    | some d =>
      show (!(pyIsSpace c && pyIsSpace d)) = true
      rw [Bool.eq_false_iff.2 hc]
      simp

theorem noDouble_append_right (xs ys : List Char) (h : noDoubleWs (xs ++ ys) = true) :
    noDoubleWs ys = true := by
  induction xs with
  | nil => exact h
  | cons a xs ih =>
    rw [List.cons_append, noDoubleWs_cons] at h
    exact ih (Bool.and_eq_true_iff.1 h).2

theorem noDouble_append_left (xs ys : List Char) (h : noDoubleWs (xs ++ ys) = true) :
    noDoubleWs xs = true := by
  induction xs with
  | nil => rfl
  | cons a xs ih =>
    rw [List.cons_append, noDoubleWs_cons] at h
    obtain ⟨h1, h2⟩ := Bool.and_eq_true_iff.1 h
    rw [noDoubleWs_cons]
    refine Bool.and_eq_true_iff.2 ⟨?_, ih h2⟩
    cases xs with
    | nil => rfl
    | cons b xs2 => exact h1

theorem prefix_head_eq {xs l : List Char} (h : xs <+: l) (hne : xs ≠ []) :
    l.head? = xs.head? := by
  obtain ⟨t, rfl⟩ := h
  cases xs with
  | nil => exact absurd rfl hne
  | cons a xs2 => rfl

theorem rstripP_prefix (p : Char → Bool) (l : List Char) : rstripP p l <+: l := by
  unfold rstripP
  obtain ⟨t, ht⟩ := List.dropWhile_suffix (l := l.reverse) p
  refine ⟨t.reverse, ?_⟩
  rw [← List.reverse_append, ht, List.reverse_reverse]

theorem rstripP_getLast (p : Char → Bool) (l : List Char) :
    ((rstripP p l).getLast?.all fun c => !p c) = true := by
  unfold rstripP
  rw [List.getLast?_reverse]
  exact head_dropWhile_false p l.reverse

theorem all_of_sub (p : Char → Bool) {l₁ l₂ : List Char} (hsub : l₁ ⊆ l₂)
    (h : l₂.all p = true) : l₁.all p = true := by
  rw [List.all_eq_true] at *
  exact fun c hc => h c (hsub hc)

theorem wsNormB_normWs (s : String) : wsNormB (normWs s) = true := by
  show wsNormB ⟨pyStripL (collapseWs s.data)⟩ = true
  set L := collapseWs s.data with hL
  have hsuffix := List.dropWhile_suffix (l := L) pyIsSpace
  have hprefix := rstripP_prefix pyIsSpace (lstripP pyIsSpace L)
  have hall : ((pyStripL L).all fun c => !pyIsSpace c || c == ' ') = true := by
    apply all_of_sub _ (List.Subset.trans hprefix.subset hsuffix.subset)
    exact collapse_all s.data
  have hnd : noDoubleWs (pyStripL L) = true := by
    obtain ⟨t, ht⟩ := hsuffix
    have h1 : noDoubleWs (lstripP pyIsSpace L) = true := by
      apply noDouble_append_right t
      show noDoubleWs (t ++ List.dropWhile pyIsSpace L) = true
      rw [ht]
      exact noDouble_collapse s.data
    obtain ⟨t2, ht2⟩ := hprefix
    apply noDouble_append_left _ t2
    show noDoubleWs (rstripP pyIsSpace (lstripP pyIsSpace L) ++ t2) = true
    rw [ht2]
    exact h1
  have hhead : (match (pyStripL L).head? with
      | some c => !pyIsSpace c
      | none => true) = true := by
    cases hne : pyStripL L with
    | nil => rfl
    | cons a rest =>
      have hpe : pyStripL L ≠ [] := by rw [hne]; exact List.cons_ne_nil a rest
      have h2 : (lstripP pyIsSpace L).head? = (pyStripL L).head? :=
        prefix_head_eq hprefix hpe
      have h3 := head_dropWhile_false pyIsSpace L
      rw [show (L.dropWhile pyIsSpace).head? = (lstripP pyIsSpace L).head? from rfl,
          h2, hne] at h3
      exact h3
  have hlast : (match (pyStripL L).getLast? with
      | some c => !pyIsSpace c
      | none => true) = true := by
    have h3 := rstripP_getLast pyIsSpace (lstripP pyIsSpace L)
    cases hg : (pyStripL L).getLast? with
    | none => rfl
    | some c =>
      rw [show rstripP pyIsSpace (lstripP pyIsSpace L) = pyStripL L from rfl, hg] at h3
      exact h3
  unfold wsNormB
  simp only [show (⟨pyStripL L⟩ : String).data = pyStripL L from rfl]
  rw [hall, hnd, hhead, hlast]
  rfl

theorem wsNormB_empty : wsNormB "" = true := by decide

theorem wsNormB_ite (t : String) : wsNormB (if t ≠ "" then normWs t else t) = true := by
  by_cases h : t = ""
  · rw [if_neg (by simp [h]), h]
    exact wsNormB_empty
  · rw [if_pos h]
    exact wsNormB_normWs t

theorem clean_ws_establishes (parts : List Part) :
    ((clean_section_text_whitespace parts).all fun part =>
      wsNormB (part.description.getD "") &&
      part.sections.all fun sec =>
        wsNormB sec.section_text && wsNormB sec.section_title &&
        sec.subsections.all fun ss =>
          wsNormB ss.subsection_text &&
          ss.paragraphs.all fun pg => wsNormB pg.text) = true := by
  rw [List.all_eq_true]
  intro part hp
  unfold clean_section_text_whitespace at hp
  simp only [List.mem_map] at hp
  obtain ⟨p0, _, rfl⟩ := hp
  refine Bool.and_eq_true_iff.2 ⟨?_, ?_⟩
  · cases hdesc : p0.description with
    | none => simp [hdesc, wsNormB_empty]
    | some d => simp [hdesc, wsNormB_normWs]
  · rw [List.all_eq_true]
    intro sec hs
    simp only [List.mem_map] at hs
    obtain ⟨sec0, _, rfl⟩ := hs
    refine Bool.and_eq_true_iff.2 ⟨Bool.and_eq_true_iff.2 ⟨?_, ?_⟩, ?_⟩
    · by_cases h1 : sec0.section_text = "" <;>
        by_cases h2 : sec0.section_title = "" <;>
          simp [h1, h2, wsNormB_normWs, wsNormB_empty]
    · by_cases h1 : sec0.section_text = "" <;>
        by_cases h2 : sec0.section_title = "" <;>
          simp [h1, h2, wsNormB_normWs, wsNormB_empty]
    · rw [List.all_eq_true]
      intro ss hss
      by_cases h1 : sec0.section_text = "" <;>
        by_cases h2 : sec0.section_title = "" <;>
          simp only [h1, h2, ne_eq, not_true_eq_false, not_false_eq_true,
            ite_true, ite_false, if_pos, if_neg] at hss ⊢ <;>
      · simp only [List.mem_map] at hss
        obtain ⟨ss0, _, rfl⟩ := hss
        refine Bool.and_eq_true_iff.2 ⟨?_, ?_⟩
        · by_cases h3 : ss0.subsection_text = "" <;>
            simp [h3, wsNormB_normWs, wsNormB_empty]
        · rw [List.all_eq_true]
          intro pg hpg
          by_cases h3 : ss0.subsection_text = "" <;>
            simp only [h3, ne_eq, not_true_eq_false, not_false_eq_true,
              ite_true, ite_false] at hpg <;>
          · simp only [List.mem_map] at hpg
            obtain ⟨pg0, _, rfl⟩ := hpg
            by_cases h4 : pg0.text = "" <;> simp [h4, wsNormB_normWs, wsNormB_empty]

theorem eraseDerived_addIds (document : Document) :
    eraseDerived (add_hierarchical_section_ids document) = eraseDerived document := by
  unfold eraseDerived add_hierarchical_section_ids
  simp only [List.map_map]
  congr 1
  apply List.map_congr_left
  intro part _
  simp only [Function.comp_apply, List.map_map]
  congr 1
  apply List.map_congr_left
  intro sec _
  simp only [Function.comp_apply, List.map_map]
  congr 1

theorem eraseDerived_bilingual (document : Document) :
    eraseDerived (extract_bilingual_terms document) = eraseDerived document := by
  unfold eraseDerived extract_bilingual_terms
  rfl

theorem eraseDerived_tokens (document : Document) :
    eraseDerived (estimate_token_counts document) = eraseDerived document := by
  unfold estimate_token_counts
  by_cases h : (document.parts.flatMap fun part =>
      part.sections.filterMap fun sec =>
        let estimated := sec.section_text.length / 4
        if estimated > 1500 then
          some { section_id := sec.section_id, section_number := sec.section_number,
                 section_title := sec.section_title, estimated_tokens := estimated,
                 recommendation := "Split by subsections for better retrieval" : ChunkingRec }
        else none) ≠ []
  · rw [if_pos h]
    unfold eraseDerived
    simp only [List.map_map]
    congr 1
    apply List.map_congr_left
    intro part _
    simp only [Function.comp_apply, List.map_map]
    congr 1
    apply List.map_congr_left
    intro sec _
    simp only [Function.comp_apply, List.map_map]
    congr 1
  · rw [if_neg h]
    unfold eraseDerived
    simp only [List.map_map]
    congr 1
    apply List.map_congr_left
    intro part _
    simp only [Function.comp_apply, List.map_map]
    congr 1
    apply List.map_congr_left
    intro sec _
    simp only [Function.comp_apply, List.map_map]
    congr 1

theorem eraseDerived_summaries (document : Document) :
    eraseDerived (add_part_summaries document) = eraseDerived document := by
  unfold eraseDerived add_part_summaries
  simp only [List.map_map]
  congr 1
  apply List.map_congr_left
  intro part _
  simp only [Function.comp_apply]
  by_cases h : part.sections ≠ []
  · rw [if_pos h]
  · rw [if_neg h]

theorem eraseDerived_retrieval (document : Document) :
    eraseDerived (add_retrieval_metadata document) = eraseDerived document := by
  unfold eraseDerived add_retrieval_metadata
  rfl

theorem eraseDerived_enhance (document : Document) :
    eraseDerived (enhance_document document) = eraseDerived document := by
  unfold enhance_document
  rw [eraseDerived_retrieval, eraseDerived_summaries, eraseDerived_tokens,
      eraseDerived_bilingual, eraseDerived_addIds]

/-- C6 (amended): the whitespace pass normalizes every description,
section title, section text, subsection text and paragraph text (the Part
title and the number/label fields are not among the fields the pass
visits), and the Enhancer's five passes only append derived fields —
erasing the derived fields from the enhanced document yields exactly the
erased input, so no text field is re-mutated downstream. -/
theorem c6_whitespace_normalization :
    (∀ parts : List Part,
      ((clean_section_text_whitespace parts).all fun part =>
        wsNormB (part.description.getD "") &&
        part.sections.all fun sec =>
          wsNormB sec.section_text && wsNormB sec.section_title &&
          sec.subsections.all fun ss =>
            wsNormB ss.subsection_text &&
            ss.paragraphs.all fun pg => wsNormB pg.text) = true) ∧
    (∀ document : Document,
      eraseDerived (enhance_document document) = eraseDerived document) :=
  ⟨clean_ws_establishes, eraseDerived_enhance⟩

/-! ### Chunk id injectivity (C8) -/

theorem append_underscore_inj (a : List Char) :
    ∀ (c b d : List Char), '_' ∉ a → '_' ∉ c →
      a ++ '_' :: b = c ++ '_' :: d → a = c ∧ b = d := by
  induction a with
  | nil =>
    intro c b d _ hc h
    cases c with
    | nil =>
      rw [List.nil_append, List.nil_append] at h
      exact ⟨rfl, (List.cons.injEq _ _ _ _ ▸ h).2⟩
    | cons x c2 =>
      rw [List.nil_append, List.cons_append] at h
      injection h with h1 h2
      rw [← h1] at hc
      exact absurd (List.mem_cons_self _ _) hc
  | cons x a2 ih =>
    intro c b d ha hc h
    cases c with
    | nil =>
      rw [List.cons_append, List.nil_append] at h
      injection h with h1 h2
      rw [h1] at ha
      exact absurd (List.mem_cons_self _ _) ha
    | cons y c2 =>
      rw [List.cons_append, List.cons_append] at h
      injection h with h1 h2
      obtain ⟨hac, hbd⟩ := ih c2 b d (fun hm => ha (List.mem_cons_of_mem _ hm))
        (fun hm => hc (List.mem_cons_of_mem _ hm)) h2
      exact ⟨by rw [h1, hac], hbd⟩

theorem partShape_no_underscore {s : String} (h : partShape s = true) :
    '_' ∉ s.data := by
  unfold partShape at h
  rcases Bool.or_eq_true_iff.1 h with h1 | h1
  · obtain ⟨_, h3⟩ := Bool.and_eq_true_iff.1 h1
    intro hm
    have := (List.all_eq_true.1 h3) '_' hm
    exact absurd this (by decide)
  · have : s = "PRELIMINARY" := by
      exact eq_of_beq h1
    rw [this]
    decide

theorem secShape_no_underscore {s : String} (h : secShape s = true) :
    '_' ∉ s.data := by
  unfold secShape at h
  rw [List.span_eq_take_drop] at h
  have hsplit : s.data = s.data.takeWhile pyIsDigit ++ s.data.dropWhile pyIsDigit :=
    (List.takeWhile_append_dropWhile _ _).symm
  intro hm
  cases hdw : s.data.dropWhile pyIsDigit with
  | nil =>
    rw [hdw] at h hsplit
    rw [List.append_nil] at hsplit
    rw [hsplit] at hm
    have := List.mem_takeWhile_imp hm
    exact absurd this (by decide)
  | cons c d2 =>
    rw [hdw] at h hsplit
    have h2 : (!(s.data.takeWhile pyIsDigit).isEmpty && (c == '.') && !d2.isEmpty &&
        d2.all pyIsDigit) = true := h
    have hdot : c = '.' := by
      have h3 := (Bool.and_eq_true_iff.1 (Bool.and_eq_true_iff.1 (Bool.and_eq_true_iff.1 h2).1).1).2
      exact eq_of_beq h3
    have hd2 : d2.all pyIsDigit = true := (Bool.and_eq_true_iff.1 h2).2
    rw [hsplit] at hm
    rcases List.mem_append.1 hm with hm1 | hm1
    · exact absurd (List.mem_takeWhile_imp hm1) (by decide)
    · rcases List.mem_cons.1 hm1 with hm2 | hm2
      · rw [hdot] at hm2
        exact absurd hm2 (by decide)
      · exact absurd ((List.all_eq_true.1 hd2) '_' hm2) (by decide)

theorem digits_no_underscore {ds : List Char} (h : ds.all pyIsDigit = true) :
    '_' ∉ ds := by
  intro hm
  exact absurd ((List.all_eq_true.1 h) '_' hm) (by decide)

theorem subShape_decomp {s : String} (h : subShape s = true) :
    ∃ ds : List Char, s.data = '(' :: ds ++ [')'] ∧ ds ≠ [] ∧ ds.all pyIsDigit = true := by
  unfold subShape at h
  cases hd : s.data with
  | nil => rw [hd] at h; exact absurd h (by decide)
  | cons c rest =>
    rw [hd] at h
    by_cases hc : c = '('
    · subst hc
      have h2 : (!rest.dropLast.isEmpty && rest.dropLast.all pyIsDigit &&
          (rest.getLast? == some ')')) = true := h
      have hne : rest.dropLast ≠ [] := by
        have h3 := (Bool.and_eq_true_iff.1 (Bool.and_eq_true_iff.1 h2).1).1
        intro he
        rw [he] at h3
        exact absurd h3 (by decide)
      have hall : rest.dropLast.all pyIsDigit = true :=
        (Bool.and_eq_true_iff.1 (Bool.and_eq_true_iff.1 h2).1).2
      have hlast : rest.getLast? = some ')' := by
        have h3 := (Bool.and_eq_true_iff.1 h2).2
        exact eq_of_beq h3
      have hrne : rest ≠ [] := by
        intro he
        rw [he] at hlast
        exact Option.noConfusion hlast
      refine ⟨rest.dropLast, ?_, hne, hall⟩
      have hsp := List.dropLast_append_getLast hrne
      rw [List.getLast?_eq_getLast rest hrne] at hlast
      have hlv : rest.getLast hrne = ')' := Option.some.inj hlast
      rw [← hlv, List.cons_append, hsp]
    · exfalso
      revert h
      simp [hc]

theorem stripParens_eq (ds : List Char) (hne : ds ≠ []) (hall : ds.all pyIsDigit = true) :
    pyStripChars ⟨'(' :: ds ++ [')']⟩ ['(', ')'] = ⟨ds⟩ := by
  cases ds with
  | nil => exact absurd rfl hne
  | cons d ds2 =>
    have hd : pyIsDigit d = true := (List.all_eq_true.1 hall) d (List.mem_cons_self _ _)
    have hdnp : (['(', ')'].contains d) = false := by
      have h1 : d ≠ '(' := by
        intro he
        rw [he] at hd
        exact absurd hd (by decide)
      have h2 : d ≠ ')' := by
        intro he
        rw [he] at hd
        exact absurd hd (by decide)
      simp [h1, h2]
    unfold pyStripChars lstripP rstripP
    have hstep1 : List.dropWhile (fun c => ['(', ')'].contains c)
        (⟨'(' :: (d :: ds2) ++ [')']⟩ : String).data = (d :: ds2) ++ [')'] := by
      show List.dropWhile (fun c => ['(', ')'].contains c) ('(' :: (d :: ds2) ++ [')']) =
        (d :: ds2) ++ [')']
      rw [List.cons_append, List.dropWhile_cons]
      rw [if_pos (by decide)]
      rw [List.cons_append, List.dropWhile_cons, if_neg (bool_ne_true hdnp)]
    rw [hstep1]
    have hrev : ((d :: ds2) ++ [')']).reverse = ')' :: (d :: ds2).reverse := by
      rw [List.reverse_append]
      rfl
    rw [hrev]
    rw [List.dropWhile_cons, if_pos (by decide)]
    have hlastd : ∀ e ∈ (d :: ds2).reverse, pyIsDigit e = true := by
      intro e he
      exact (List.all_eq_true.1 hall) e (List.mem_reverse.1 he)
    cases hr : (d :: ds2).reverse with
    | nil =>
      exfalso
      have := List.reverse_eq_nil_iff.1 hr
      exact List.noConfusion this
    | cons e r2 =>
      have hed : pyIsDigit e = true := hlastd e (by rw [hr]; exact List.mem_cons_self _ _)
      have henp : (['(', ')'].contains e) = false := by
        have h1 : e ≠ '(' := by
          intro hee
          rw [hee] at hed
          exact absurd hed (by decide)
        have h2 : e ≠ ')' := by
          intro hee
          rw [hee] at hed
          exact absurd hed (by decide)
        simp [h1, h2]
      rw [List.dropWhile_cons, if_neg (bool_ne_true henp), ← hr, List.reverse_reverse]

theorem string_data_inj {s t : String} (h : s.data = t.data) : s = t := by
  cases s
  cases t
  exact congrArg String.mk h

theorem chunk_prefix_inj (j a p1 s1 p2 s2 : String) (R1 R2 : List Char)
    (hp1 : '_' ∉ p1.data) (hp2 : '_' ∉ p2.data)
    (h : ((j ++ "_" ++ a ++ "_" ++ p1 ++ "_" ++ s1).data ++ R1) =
         ((j ++ "_" ++ a ++ "_" ++ p2 ++ "_" ++ s2).data ++ R2)) :
    p1 = p2 ∧ (s1.data ++ R1) = (s2.data ++ R2) := by
  simp only [String.data_append, show ("_" : String).data = ['_'] from rfl,
    List.append_assoc, List.singleton_append] at h
  have h1 := List.append_cancel_left h
  injection h1 with h1a h1b
  have h3 := List.append_cancel_left h1b
  injection h3 with h3a h3b
  obtain ⟨hp, hs⟩ := append_underscore_inj p1.data p2.data _ _ hp1 hp2 h3b
  exact ⟨string_data_inj hp, hs⟩

theorem data_append_underscore (X : String) (ds : List Char) :
    (X ++ "_" ++ (⟨ds⟩ : String)).data = X.data ++ ('_' :: ds) := by
  simp only [String.data_append, show ("_" : String).data = ['_'] from rfl,
    List.append_assoc, List.singleton_append]

theorem gen_id_some (j a p s : String) (t : String) (ds : List Char)
    (ht : t.data = '(' :: ds ++ [')']) (hdne : ds ≠ []) (hdall : ds.all pyIsDigit = true) :
    generate_chunk_id j a p s (some t) =
      j ++ "_" ++ a ++ "_" ++ p ++ "_" ++ s ++ "_" ++ (⟨ds⟩ : String) := by
  have htne : ¬(t = "") := by
    intro he
    rw [he] at ht
    exact List.noConfusion ht
  have hopt : optTruthy (some t) = true := decide_eq_true htne
  unfold generate_chunk_id
  rw [if_pos hopt]
  have ht2 : t = ⟨'(' :: ds ++ [')']⟩ := string_data_inj ht
  rw [show (some t).getD "" = t from rfl, ht2, stripParens_eq ds hdne hdall]

theorem gen_id_some_data (j a p s : String) (t : String) (ds : List Char)
    (ht : t.data = '(' :: ds ++ [')']) (hdne : ds ≠ []) (hdall : ds.all pyIsDigit = true) :
    (generate_chunk_id j a p s (some t)).data =
      (j ++ "_" ++ a ++ "_" ++ p ++ "_" ++ s).data ++ ('_' :: ds) := by
  rw [gen_id_some j a p s t ds ht hdne hdall]
  exact data_append_underscore (j ++ "_" ++ a ++ "_" ++ p ++ "_" ++ s) ds

theorem gen_id_none_data (j a p s : String) :
    (generate_chunk_id j a p s none).data =
      (j ++ "_" ++ a ++ "_" ++ p ++ "_" ++ s).data ++ [] := by
  unfold generate_chunk_id
  rw [if_neg (by decide), List.append_nil]

/-- C8: for a fixed jurisdiction/act abbreviation pair, `generate_chunk_id`
is injective across the (part number, section number, optional subsection
number) triples of the shapes the pipeline produces. -/
theorem c8_chunk_id_injective :
    ∀ (j a p1 s1 p2 s2 : String) (u1 u2 : Option String),
      partShape p1 = true → secShape s1 = true → u1.all subShape = true →
      partShape p2 = true → secShape s2 = true → u2.all subShape = true →
      generate_chunk_id j a p1 s1 u1 = generate_chunk_id j a p2 s2 u2 →
      p1 = p2 ∧ s1 = s2 ∧ u1 = u2 := by
  intro j a p1 s1 p2 s2 u1 u2 hp1 hs1 hu1 hp2 hs2 hu2 heq
  cases u1 with
  | none =>
    cases u2 with
    | none =>
      have heqd := congrArg String.data heq
      rw [gen_id_none_data, gen_id_none_data] at heqd
      have h := chunk_prefix_inj j a p1 s1 p2 s2 [] []
        (partShape_no_underscore hp1) (partShape_no_underscore hp2) heqd
      obtain ⟨hp, hs⟩ := h
      rw [List.append_nil, List.append_nil] at hs
      exact ⟨hp, string_data_inj hs, rfl⟩
    | some t2 =>
      have hsub2 : subShape t2 = true := hu2
      obtain ⟨ds2, ht2, hdne2, hdall2⟩ := subShape_decomp hsub2
      have heqd := congrArg String.data heq
      rw [gen_id_none_data, gen_id_some_data j a p2 s2 t2 ds2 ht2 hdne2 hdall2] at heqd
      have h := chunk_prefix_inj j a p1 s1 p2 s2 [] ('_' :: ds2)
        (partShape_no_underscore hp1) (partShape_no_underscore hp2) heqd
      obtain ⟨hp, hs⟩ := h
      rw [List.append_nil] at hs
      exfalso
      have hm : '_' ∈ s2.data ++ '_' :: ds2 :=
        List.mem_append_right _ (List.mem_cons_self _ _)
      rw [← hs] at hm
      exact absurd hm (secShape_no_underscore hs1)
  | some t1 =>
    have hsub1 : subShape t1 = true := hu1
    obtain ⟨ds1, ht1, hdne1, hdall1⟩ := subShape_decomp hsub1
    cases u2 with
    | none =>
      have heqd := congrArg String.data heq
      rw [gen_id_some_data j a p1 s1 t1 ds1 ht1 hdne1 hdall1, gen_id_none_data] at heqd
      have h := chunk_prefix_inj j a p1 s1 p2 s2 ('_' :: ds1) []
        (partShape_no_underscore hp1) (partShape_no_underscore hp2) heqd
      obtain ⟨hp, hs⟩ := h
      rw [List.append_nil] at hs
      exfalso
      have hm : '_' ∈ s1.data ++ '_' :: ds1 :=
        List.mem_append_right _ (List.mem_cons_self _ _)
      rw [hs] at hm
      exact absurd hm (secShape_no_underscore hs2)
    | some t2 =>
      have hsub2 : subShape t2 = true := hu2
      obtain ⟨ds2, ht2, hdne2, hdall2⟩ := subShape_decomp hsub2
      have heqd := congrArg String.data heq
      rw [gen_id_some_data j a p1 s1 t1 ds1 ht1 hdne1 hdall1,
          gen_id_some_data j a p2 s2 t2 ds2 ht2 hdne2 hdall2] at heqd
      have h := chunk_prefix_inj j a p1 s1 p2 s2 ('_' :: ds1) ('_' :: ds2)
        (partShape_no_underscore hp1) (partShape_no_underscore hp2) heqd
      obtain ⟨hp, hs⟩ := h
      obtain ⟨hseq, hds⟩ := append_underscore_inj s1.data s2.data ds1 ds2
        (secShape_no_underscore hs1) (secShape_no_underscore hs2) hs
      refine ⟨hp, string_data_inj hseq, ?_⟩
      have : t1 = t2 := by
        apply string_data_inj
        rw [ht1, ht2, hds]
      rw [this]

/-- C8 witness: the injectivity theorem applied at a concrete pair of equal
triples of the produced shapes. -/
theorem c8_chunk_id_injective_witness :
    "I" = "I" ∧ "5.1" = "5.1" ∧ (some "(2)" : Option String) = some "(2)" :=
  c8_chunk_id_injective JURISDICTION_ABBR ACT_ABBR "I" "5.1" "I" "5.1"
    (some "(2)") (some "(2)") (by decide) (by decide) (by decide)
    (by decide) (by decide) (by decide) rfl


theorem metaUpdate_frame (doc : Document) (text : String) :
    (metaUpdate doc text).parts = doc.parts ∧
    (metaUpdate doc text).amendments = doc.amendments ∧
    (metaUpdate doc text).definitions = doc.definitions ∧
    (metaUpdate doc text).schedules = doc.schedules := by
  unfold metaUpdate
  repeat' split
  all_goals simp

/-- C4 (amended): a fragment shorter than 100 characters that carries a
structured amendment citation and reaches the standalone-amendment check
(no pending lookahead, no open Schedule, and it matches none of the
Schedule/Part header patterns) is dropped: the current position and the
parts, amendments, definitions and schedules collections are all left
unchanged — in particular it is NOT appended to `Document.amendments`. -/
theorem c4_standalone_citation_dropped (st : BuilderState) (el : Element)
    (hpt : st.pendingPartText = none) (hpn : st.pendingPartNumber = none)
    (hsch : st.curSchedule = false)
    (hm1 : reMatch2 schedRE (pyStrip el.text) = none)
    (hm2 : reMatch2 partRE (pyStrip el.text) = none)
    (hm3 : reMatch2 multilinePartRE (pyStrip el.text) = none)
    (hm4 : reMatch1 partNumOnlyRE (pyStrip el.text) = none)
    (hamend : (extract_amendment_info (pyStrip el.text)).2.isSome = true)
    (hlen : (pyStrip el.text).length < 100) :
    (parseElement st el).doc.parts = st.doc.parts ∧
    (parseElement st el).doc.amendments = st.doc.amendments ∧
    (parseElement st el).doc.definitions = st.doc.definitions ∧
    (parseElement st el).doc.schedules = st.doc.schedules ∧
    (parseElement st el).curPart = st.curPart ∧
    (parseElement st el).curSection = st.curSection ∧
    (parseElement st el).curSubsection = st.curSubsection ∧
    (parseElement st el).curSchedule = false ∧
    (parseElement st el).pendingPartText = none ∧
    (parseElement st el).pendingPartNumber = none := by
  unfold parseElement
  by_cases h0 : pyStrip el.text = ""
  · simp [h0, hpt, hpn, hsch]
  · rw [if_neg (by simpa using h0)]
    by_cases htab : (el.category == "Table" && decide ((pyStrip el.text).length > 1000)) = true
    · rw [if_pos htab]
      exact ⟨rfl, rfl, rfl, rfl, rfl, rfl, rfl, hsch, hpt, hpn⟩
    · rw [if_neg htab, hpt]
      show (processText st (pyStrip el.text)).doc.parts = st.doc.parts ∧ _
      unfold processText stepScheduleOnward
      simp only [hm1, hsch, Bool.false_eq_true, if_false]
      unfold stepPartOnward
      simp only [hpn, hm2, hm3, hm4]
      obtain ⟨f1, f2, f3, f4⟩ := metaUpdate_frame st.doc (pyStrip el.text)
      by_cases hhdr : reSearchBool sectionAmendHdrRE (pyStrip el.text) = true
      · rw [if_pos hhdr]
        exact ⟨f1, f2, f3, f4, rfl, rfl, rfl, rfl, hpt, rfl⟩
      · rw [if_neg hhdr, if_pos (by rw [hamend]; simpa using hlen)]
        exact ⟨f1, f2, f3, f4, rfl, rfl, rfl, rfl, hpt, rfl⟩

theorem withCurPart_meta (st : BuilderState) (f : Part → Part) :
    (withCurPart st f).doc.act_name = st.doc.act_name ∧
    (withCurPart st f).doc.citation = st.doc.citation := by
  unfold withCurPart
  cases st.curPart <;> exact ⟨rfl, rfl⟩

theorem appendCtx_meta (st : BuilderState) (text : String) :
    (appendCtx st text).doc.act_name = st.doc.act_name ∧
    (appendCtx st text).doc.citation = st.doc.citation := by
  unfold appendCtx withCurSubsection withCurSection
  split
  · exact withCurPart_meta st _
  · split
    · exact withCurPart_meta st _
    · split
      · exact withCurPart_meta st _
      · exact ⟨rfl, rfl⟩

theorem contStep_meta (st : BuilderState) (text : String) :
    (contStep st text).doc.act_name = st.doc.act_name ∧
    (contStep st text).doc.citation = st.doc.citation := by
  unfold contStep
  split
  · exact appendCtx_meta _ _
  · exact appendCtx_meta _ _

theorem stepParagraphOnward_meta (st : BuilderState) (text : String) :
    (stepParagraphOnward st text).doc.act_name = st.doc.act_name ∧
    (stepParagraphOnward st text).doc.citation = st.doc.citation := by
  unfold stepParagraphOnward withCurSubsection withCurSection
  split
  · split
    · exact withCurPart_meta st _
    · exact contStep_meta _ _
  · exact contStep_meta _ _

theorem stepSubsectionOnward_meta (st : BuilderState) (text : String) :
    (stepSubsectionOnward st text).doc.act_name = st.doc.act_name ∧
    (stepSubsectionOnward st text).doc.citation = st.doc.citation := by
  unfold stepSubsectionOnward withCurSection
  split
  · split
    · exact withCurPart_meta st _
    · exact stepParagraphOnward_meta _ _
  · exact stepParagraphOnward_meta _ _

theorem stepSectionOnward_meta (st : BuilderState) (text : String) :
    (stepSectionOnward st text).doc.act_name = st.doc.act_name ∧
    (stepSectionOnward st text).doc.citation = st.doc.citation := by
  unfold stepSectionOnward
  split
  · split
    · split
      · exact ⟨rfl, rfl⟩
      · split
        · constructor
          · exact (withCurPart_meta _ _).1
          · exact (withCurPart_meta _ _).2
        · constructor
          · exact (withCurPart_meta _ _).1
          · exact (withCurPart_meta _ _).2
    · exact stepSubsectionOnward_meta _ _
  · exact stepSubsectionOnward_meta _ _

theorem stepDefinitionOnward_meta (st : BuilderState) (text : String) :
    (stepDefinitionOnward st text).doc.act_name = st.doc.act_name ∧
    (stepDefinitionOnward st text).doc.citation = st.doc.citation := by
  unfold stepDefinitionOnward
  split
  · exact ⟨rfl, rfl⟩
  · exact stepSectionOnward_meta _ _

theorem stepPartOnward_meta (st : BuilderState) (text : String) :
    (stepPartOnward st text).doc.act_name = st.doc.act_name ∧
    (stepPartOnward st text).doc.citation = st.doc.citation := by
  unfold stepPartOnward openPart
  split
  · exact ⟨rfl, rfl⟩
  · split
    · exact ⟨rfl, rfl⟩
    · split
      · exact ⟨rfl, rfl⟩
      · split
        · exact ⟨rfl, rfl⟩
        · split
          · exact ⟨rfl, rfl⟩
          · split
            · exact ⟨rfl, rfl⟩
            · exact stepDefinitionOnward_meta _ _

theorem stepScheduleOnward_meta (st : BuilderState) (text : String) :
    (stepScheduleOnward st text).doc.act_name = st.doc.act_name ∧
    (stepScheduleOnward st text).doc.citation = st.doc.citation := by
  unfold stepScheduleOnward
  split
  · exact ⟨rfl, rfl⟩
  · split
    · split
      · exact stepPartOnward_meta _ _
      · exact ⟨rfl, rfl⟩
    · exact stepPartOnward_meta _ _

theorem metaUpdate_frozen (doc : Document) (text : String) (a : String)
    (h : doc.act_name = some a) (hne : a ≠ "") :
    (metaUpdate doc text).act_name = doc.act_name ∧
    (metaUpdate doc text).citation = doc.citation := by
  have hfal : actNameFalsy doc.act_name = false := by
    rw [h]
    unfold actNameFalsy
    simpa using hne
  unfold metaUpdate
  simp only [hfal, Bool.false_and, Bool.false_eq_true, if_false]
  split
  · split
    · exact ⟨rfl, rfl⟩
    · split
      · exact ⟨rfl, rfl⟩
      · exact ⟨rfl, rfl⟩
  · exact ⟨rfl, rfl⟩

theorem metaUpdate_sets_citation (doc : Document) (text : String)
    (hfal : actNameFalsy doc.act_name = true)
    (hso : strContains text "S.O." = true) (hlen : text.length < 300) :
    (metaUpdate doc text).citation = some text := by
  have hcond : (actNameFalsy doc.act_name &&
      (strContains text "Act" || strContains text "S.O.")) = true := by
    rw [hfal, hso]
    simp
  have hc2 : (strContains text "S.O." && decide (text.length < 300)) = true := by
    rw [hso]
    simpa using hlen
  unfold metaUpdate
  simp only [hcond, hc2, eq_self_iff_true, if_true]
  split <;> split <;> try split
  all_goals try rfl
  all_goals simp [apply_ite Document.citation]

/-- C5 (amended): the act-metadata block is gated on `act_name` alone.  Once
`act_name` holds a non-empty value, neither `act_name` nor `citation` is
ever modified again; while `act_name` is still unset, any short
`S.O.`-marker fragment (re)writes `citation` — even one that is already
set. -/
theorem c5_act_metadata_gating :
    ∀ (st : BuilderState) (el : Element) (a : String),
      (st.doc.act_name = some a → a ≠ "" →
        (parseElement st el).doc.act_name = some a ∧
        (parseElement st el).doc.citation = st.doc.citation) ∧
      (st.pendingPartText = none → pyStrip el.text ≠ "" →
        ¬((el.category == "Table" && decide ((pyStrip el.text).length > 1000)) = true) →
        actNameFalsy st.doc.act_name = true →
        strContains (pyStrip el.text) "S.O." = true →
        (pyStrip el.text).length < 300 →
        (parseElement st el).doc.citation = some (pyStrip el.text)) := by
  intro st el a
  constructor
  · intro h hne
    have key : ∀ (st2 : BuilderState) (tx : String), st2.doc.act_name = some a →
        (processText st2 tx).doc.act_name = some a ∧
        (processText st2 tx).doc.citation = st2.doc.citation := by
      intro st2 tx h2
      have hm := stepScheduleOnward_meta { st2 with doc := metaUpdate st2.doc tx } tx
      have hfr := metaUpdate_frozen st2.doc tx a h2 hne
      unfold processText
      constructor
      · rw [hm.1]
        show (metaUpdate st2.doc tx).act_name = some a
        rw [hfr.1, h2]
      · rw [hm.2]
        exact hfr.2
    unfold parseElement
    by_cases h0 : pyStrip el.text = ""
    · rw [if_pos (by simpa using h0)]
      exact ⟨h, rfl⟩
    · rw [if_neg (by simpa using h0)]
      by_cases htab : (el.category == "Table" && decide ((pyStrip el.text).length > 1000)) = true
      · rw [if_pos htab]
        exact ⟨h, rfl⟩
      · rw [if_neg htab]
        cases hpt : st.pendingPartText with
        | some pt => exact key { st with pendingPartText := none } pt h
        | none => exact key st (pyStrip el.text) h
  · intro hpt hne htab hfal hso hlen
    unfold parseElement
    rw [if_neg (by simpa using hne), if_neg htab, hpt]
    unfold processText
    have hm := stepScheduleOnward_meta { st with doc := metaUpdate st.doc (pyStrip el.text) }
      (pyStrip el.text)
    rw [hm.2]
    exact metaUpdate_sets_citation st.doc (pyStrip el.text) hfal hso hlen

/-- C4 witness: the amended claim at the concrete standalone citation line. -/
theorem c4_standalone_citation_dropped_witness :
    (parseElement initState ⟨"Text", "2013, c. 3, s. 20 - 01/06/2014"⟩).doc.parts =
        initState.doc.parts ∧
    (parseElement initState ⟨"Text", "2013, c. 3, s. 20 - 01/06/2014"⟩).doc.amendments =
        initState.doc.amendments ∧
    (parseElement initState ⟨"Text", "2013, c. 3, s. 20 - 01/06/2014"⟩).doc.definitions =
        initState.doc.definitions ∧
    (parseElement initState ⟨"Text", "2013, c. 3, s. 20 - 01/06/2014"⟩).doc.schedules =
        initState.doc.schedules ∧
    (parseElement initState ⟨"Text", "2013, c. 3, s. 20 - 01/06/2014"⟩).curPart =
        initState.curPart ∧
    (parseElement initState ⟨"Text", "2013, c. 3, s. 20 - 01/06/2014"⟩).curSection =
        initState.curSection ∧
    (parseElement initState ⟨"Text", "2013, c. 3, s. 20 - 01/06/2014"⟩).curSubsection =
        initState.curSubsection ∧
    (parseElement initState ⟨"Text", "2013, c. 3, s. 20 - 01/06/2014"⟩).curSchedule = false ∧
    (parseElement initState ⟨"Text", "2013, c. 3, s. 20 - 01/06/2014"⟩).pendingPartText =
        none ∧
    (parseElement initState ⟨"Text", "2013, c. 3, s. 20 - 01/06/2014"⟩).pendingPartNumber =
        none :=
  c4_standalone_citation_dropped initState ⟨"Text", "2013, c. 3, s. 20 - 01/06/2014"⟩
    rfl rfl rfl (by decide) (by decide) (by decide) (by decide) (by decide) (by decide)

/-- C5 witness: the frozen-after-act_name part applied with a set act name,
and the citation-write part applied to the initial state. -/
theorem c5_act_metadata_gating_witness :
    ((parseElement { initState with doc := { initDocument with act_name := some "Residential Act" } }
        ⟨"Text", "S.O. 1999, c. 1"⟩).doc.act_name = some "Residential Act" ∧
      (parseElement { initState with doc := { initDocument with act_name := some "Residential Act" } }
        ⟨"Text", "S.O. 1999, c. 1"⟩).doc.citation =
        ({ initState with doc := { initDocument with act_name := some "Residential Act" } } :
          BuilderState).doc.citation) ∧
    (parseElement initState ⟨"Text", "S.O. 2006, c. 17"⟩).doc.citation =
      some (pyStrip "S.O. 2006, c. 17") :=
  ⟨(c5_act_metadata_gating
      { initState with doc := { initDocument with act_name := some "Residential Act" } }
      ⟨"Text", "S.O. 1999, c. 1"⟩ "Residential Act").1 rfl (by decide),
   (c5_act_metadata_gating initState ⟨"Text", "S.O. 2006, c. 17"⟩ "x").2 rfl (by decide)
      (by decide) rfl (by decide) (by decide)⟩

theorem split_merged_none {t : String} (h : (split_merged_content t).2 = none) :
    split_merged_content t = (t, none) := by
  unfold split_merged_content at h ⊢
  cases hm : reSearch splitMergedRE t with
  | none => rfl
  | some m =>
    have hred : (match reSearch splitMergedRE t with
        | some m =>
          match capStr m.caps 1, capStr m.caps 2 with
          | some g1, some g2 => (pyStrip g1, some (pyStrip g2))
          | _, _ => ((t, none) : String × Option String)
        | none => (t, none)) =
        (match capStr m.caps 1, capStr m.caps 2 with
          | some g1, some g2 => (pyStrip g1, some (pyStrip g2))
          | _, _ => ((t, none) : String × Option String)) := by
      rw [hm]
    rw [hred] at h
    show (match capStr m.caps 1, capStr m.caps 2 with
        | some g1, some g2 => (pyStrip g1, some (pyStrip g2))
        | _, _ => ((t, none) : String × Option String)) = (t, none)
    cases c1 : capStr m.caps 1 with
    | none => cases c2 : capStr m.caps 2 <;> rfl
    | some g1 =>
      cases c2 : capStr m.caps 2 with
      | none => rfl
      | some g2 =>
        rw [c1, c2] at h
        have h3 : (some (pyStrip g2) : Option String) = none := h
        exact Option.noConfusion h3

/-- C10: a fragment matching none of the classifier's patterns, processed
while no Part, Section, Subsection or Schedule is open and no lookahead is
pending, leaves the builder state — the Document included — completely
unchanged: its text is silently discarded. -/
theorem c10_orphan_continuation_discarded (st : BuilderState) (el : Element)
    (hcp : st.curPart = none) (hcs : st.curSection = false)
    (hcss : st.curSubsection = false) (hcsch : st.curSchedule = false)
    (hpt : st.pendingPartText = none) (hpn : st.pendingPartNumber = none)
    (hact : strContains (pyStrip el.text) "Act" = false)
    (hso : strContains (pyStrip el.text) "S.O." = false)
    (hcons : strContains (pyStrip el.text) "Consolidation Period" = false)
    (hlam : strContains (pyStrip el.text) "Last amendment" = false)
    (hm1 : reMatch2 schedRE (pyStrip el.text) = none)
    (hm2 : reMatch2 partRE (pyStrip el.text) = none)
    (hm3 : reMatch2 multilinePartRE (pyStrip el.text) = none)
    (hm4 : reMatch1 partNumOnlyRE (pyStrip el.text) = none)
    (hhdr : reSearchBool sectionAmendHdrRE (pyStrip el.text) = false)
    (hamend : (extract_amendment_info (pyStrip el.text)).2 = none)
    (hdef : reMatch2 defnRE (pyStrip el.text) = none)
    (hsec : reMatch2 sectionRE (pyStrip el.text) = none)
    (hsub : reMatch2 subsectionRE (pyStrip el.text) = none)
    (hpar : reMatch2 paragraphRE (pyStrip el.text) = none)
    (hsplit : (split_merged_content (pyStrip el.text)).2 = none) :
    parseElement st el = st := by
  unfold parseElement
  by_cases h0 : pyStrip el.text = ""
  · rw [if_pos (by simpa using h0)]
  · rw [if_neg (by simpa using h0)]
    by_cases htab : (el.category == "Table" && decide ((pyStrip el.text).length > 1000)) = true
    · rw [if_pos htab]
    · rw [if_neg htab, hpt]
      unfold processText
      have hmu : metaUpdate st.doc (pyStrip el.text) = st.doc := by
        unfold metaUpdate
        simp only [hact, hso, hcons, hlam, Bool.or_self, Bool.and_false,
          Bool.false_eq_true, if_false, Bool.or_false, Bool.false_or]
      rw [hmu, show { st with doc := st.doc } = st from rfl]
      unfold stepScheduleOnward
      simp only [hm1, hcsch, Bool.false_eq_true, if_false]
      unfold stepPartOnward
      simp only [hpn, hm2, hm3, hm4, hhdr, Bool.false_eq_true, if_false, hamend,
        Option.isSome_none, Bool.false_and]
      unfold stepDefinitionOnward
      simp only [hdef]
      unfold stepSectionOnward
      simp only [hsec]
      unfold stepSubsectionOnward
      simp only [hsub]
      unfold stepParagraphOnward
      simp only [hpar]
      unfold contStep
      rw [split_merged_none hsplit]
      unfold appendCtx
      simp only [hcss, hcs, Bool.false_eq_true, if_false, hcp]

/-- C10 witness: the discard theorem at the initial state and a plain prose
fragment. -/
theorem c10_orphan_continuation_discarded_witness :
    parseElement initState ⟨"Text", "hello world"⟩ = initState :=
  c10_orphan_continuation_discarded initState ⟨"Text", "hello world"⟩
    rfl rfl rfl rfl rfl rfl (by decide) (by decide) (by decide) (by decide)
    (by decide) (by decide) (by decide) (by decide) (by decide) (by decide)
    (by decide) (by decide) (by decide) (by decide) (by decide)

end RTA
